import Mathlib

/-!
# Verification of the budget-tracker transaction ingestion and categorization pipeline

Shallow embedding of the parsing/categorization modules of the repository
(`src/utils/categorizationCache.ts` — cache, rules, CSV parsing;
`src/utils/pdfParser.ts` — AI extraction and pattern-matching extraction;
`src/lib/openrouter.ts` — three-tier categorization engine), together with
theorems settling the frozen claims about them.

Modelling conventions:
* JavaScript numbers are modelled as `ℚ`.  Binary-float rounding and the
  `Infinity` value of `parseFloat` are not modelled (no claim depends on them);
  `NaN` is modelled as `Option.none` of the parsing functions.
* Strings are Lean `String`s; the regular expressions of the source are
  hand-compiled into deterministic scanners over `List Char` that implement the
  leftmost-greedy match semantics of the concrete patterns that appear in the
  source.  `RegExp.test` is modelled statelessly (the `lastIndex` mutation of
  global regexes does not change the outcome at any input used in a theorem).
* `localStorage` is a `Storage` value: the contents of the single cache key
  plus two fault flags which make `getItem`/`setItem` throw; `JSON.parse`
  failure is the `garbage` contents.  Bodies of the cached functions are
  written in the `Except` monad and the surrounding `try`/`catch` is the
  wrapper that discharges the exception.
* The wall clock is passed explicitly: `now : Int` is `Date.now()` in
  milliseconds, and a `Clock` is the current civil date used by
  `new Date().toISOString().split('T')[0]`.
* External HTTP calls are oracles passed as parameters: the categorization
  delegate is the parsed list of `{index, category, confidence}` records (or a
  fetch failure), the extraction delegate is a per-chunk outcome function.
-/

deriving instance DecidableEq for Except

namespace Budget

/-! ## JavaScript string primitives -/

/-- The characters matched by `\s` in the source regexes (ASCII part). -/
def isSpaceJS (c : Char) : Bool :=
  c = ' ' || c = '\t' || c = '\n' || c = '\r' || c = Char.ofNat 11 || c = Char.ofNat 12

/-- ASCII `toLowerCase`. -/
def toLowerJS (s : String) : String := ⟨s.data.map Char.toLower⟩

/-- `String.prototype.trim`. -/
def trimJS (s : String) : String :=
  ⟨((s.data.dropWhile isSpaceJS).reverse.dropWhile isSpaceJS).reverse⟩

/-- Split on a single separator character, `"a,b,".split(",") = ["a","b",""]`. -/
def splitCharAux (sep : Char) : List Char → List Char → List String
  | [], cur => [⟨cur.reverse⟩]
  | c :: rest, cur =>
    if c = sep then ⟨cur.reverse⟩ :: splitCharAux sep rest []
    else splitCharAux sep rest (c :: cur)

def jsSplitOn (sep : Char) (s : String) : List String := splitCharAux sep s.data []

/-- Split on `/\r?\n/` (a lone CR is not a separator). -/
def splitCRLFAux : List Char → List Char → List String
  | [], cur => [⟨cur.reverse⟩]
  | '\r' :: '\n' :: rest, cur => ⟨cur.reverse⟩ :: splitCRLFAux rest []
  | '\n' :: rest, cur => ⟨cur.reverse⟩ :: splitCRLFAux rest []
  | c :: rest, cur => splitCRLFAux rest (c :: cur)

def jsSplitCRLF (s : String) : List String := splitCRLFAux s.data []

/-- Split on `/\n|\r\n|\r/` (CRLF counts as one separator, lone CR separates). -/
def splitNLAux : List Char → List Char → List String
  | [], cur => [⟨cur.reverse⟩]
  | '\n' :: rest, cur => ⟨cur.reverse⟩ :: splitNLAux rest []
  | '\r' :: '\n' :: rest, cur => ⟨cur.reverse⟩ :: splitNLAux rest []
  | '\r' :: rest, cur => ⟨cur.reverse⟩ :: splitNLAux rest []
  | c :: rest, cur => splitNLAux rest (c :: cur)

def jsSplitNewlines (s : String) : List String := splitNLAux s.data []

/-- Split on runs of at least `n` whitespace characters (`/\s+/` for `n = 1`,
`/\s{3,}/` for `n = 3`); shorter runs stay inside the fields, exactly as the
greedy regex separator does. -/
def splitWsAux (n : Nat) : List Char → List Char → List Char → List String
  | [], run, cur =>
    if run = [] then [⟨cur.reverse⟩]
    else if n ≤ run.length then [⟨cur.reverse⟩, ""]
    else [⟨(run ++ cur).reverse⟩]
  | c :: rest, run, cur =>
    if isSpaceJS c then splitWsAux n rest (c :: run) cur
    else if n ≤ run.length then ⟨cur.reverse⟩ :: splitWsAux n rest [] [c]
    else splitWsAux n rest [] (c :: (run ++ cur))

def jsSplitWs (s : String) : List String := splitWsAux 1 s.data [] []

def jsSplitWs3 (s : String) : List String := splitWsAux 3 s.data [] []

def startsWithChars : List Char → List Char → Bool
  | [], _ => true
  | _ :: _, [] => false
  | a :: as, b :: bs => a = b && startsWithChars as bs

def infixChars (sub : List Char) : List Char → Bool
  | [] => startsWithChars sub []
  | c :: rest => startsWithChars sub (c :: rest) || infixChars sub rest

/-- `String.prototype.includes`. -/
def jsIncludes (hay sub : String) : Bool := infixChars sub.data hay.data

/-! ## JavaScript number parsing (`parseFloat`) over `ℚ` -/

def digitsVal (ds : List Char) : Nat := ds.foldl (fun a c => a * 10 + (c.toNat - 48)) 0

def pow10 (n : Nat) : ℚ := (10 : ℚ) ^ n

/-- Optional exponent suffix of a decimal literal (`e`/`E`, sign, digits);
an `e` not followed by digits is not consumed, as in `parseFloat`. -/
def applyExp (q : ℚ) : List Char → ℚ
  | [] => q
  | c :: rest =>
    if c = 'e' || c = 'E' then
      let (neg, r2) : Bool × List Char := match rest with
        | '+' :: r => (false, r)
        | '-' :: r => (true, r)
        | r => (false, r)
      let ed := r2.takeWhile Char.isDigit
      if ed = [] then q
      else if neg then q / pow10 (digitsVal ed)
      else q * pow10 (digitsVal ed)
    else q

/-- `parseFloat`: longest valid decimal prefix after leading whitespace;
`none` models `NaN`.  (The `Infinity` literal is outside the `ℚ` model.) -/
def parseFloatQ (s : String) : Option ℚ :=
  let cs := s.data.dropWhile isSpaceJS
  let (sgn, cs1) : ℚ × List Char := match cs with
    | '+' :: r => (1, r)
    | '-' :: r => (-1, r)
    | r => (1, r)
  let ip := cs1.takeWhile Char.isDigit
  let cs2 := cs1.dropWhile Char.isDigit
  if ip = [] then
    match cs2 with
    | '.' :: r =>
      let fp := r.takeWhile Char.isDigit
      if fp = [] then none
      else some (sgn * applyExp ((digitsVal fp : ℚ) / pow10 fp.length) (r.dropWhile Char.isDigit))
    | _ => none
  else
    match cs2 with
    | '.' :: r =>
      let fp := r.takeWhile Char.isDigit
      some (sgn * applyExp ((digitsVal ip : ℚ) + (digitsVal fp : ℚ) / pow10 fp.length)
        (r.dropWhile Char.isDigit))
    | _ => some (sgn * applyExp (digitsVal ip : ℚ) cs2)

/-! ## Dates

`new Date(string)` is modelled by `jsDateParse`, implementing the date-only
forms of the ECMAScript Date Time String Format (`YYYY`, `YYYY-MM`,
`YYYY-MM-DD` and the expanded-year forms `±YYYYYY…`), with calendar validation
and the representable-range check of time values.  Strings with a time
component or in implementation-defined fallback formats are treated as
unparseable (they fall through to the "today" default).
`Date.prototype.toISOString` restricted to the date part is `isoDateString`.
The current date (`new Date()`), which by construction always has a four-digit
year, is a `Clock`. -/

structure Clock where
  year : Int
  month : Nat
  day : Nat
  year_nonneg : 0 ≤ year
  year_le : year ≤ 9999
  month_pos : 1 ≤ month
  month_le : month ≤ 12
  day_pos : 1 ≤ day
  day_le : day ≤ 31

def digitChar (n : Nat) : Char :=
  match n % 10 with
  | 0 => '0' | 1 => '1' | 2 => '2' | 3 => '3' | 4 => '4'
  | 5 => '5' | 6 => '6' | 7 => '7' | 8 => '8' | _ => '9'

/-- The date part of `toISOString`: `YYYY-MM-DD` (zero-padded) for years
0–9999, the expanded signed six-digit-year form otherwise.  The month and day
are always rendered with two digits (they are at most 31 wherever this is
applied). -/
def isoDateString (y : Int) (m d : Nat) : String :=
  if 0 ≤ y ∧ y ≤ 9999 then
    ⟨[digitChar (y.toNat / 1000), digitChar (y.toNat / 100), digitChar (y.toNat / 10),
      digitChar y.toNat, '-', digitChar (m / 10), digitChar m, '-',
      digitChar (d / 10), digitChar d]⟩
  else
    ⟨(if y < 0 then '-' else '+') ::
      [digitChar (y.natAbs / 100000), digitChar (y.natAbs / 10000), digitChar (y.natAbs / 1000),
       digitChar (y.natAbs / 100), digitChar (y.natAbs / 10), digitChar y.natAbs,
       '-', digitChar (m / 10), digitChar m, '-', digitChar (d / 10), digitChar d]⟩

def todayStr (clk : Clock) : String := isoDateString clk.year clk.month clk.day

def isLeapYear (y : Int) : Bool := (y % 4 = 0 && y % 100 ≠ 0) || y % 400 = 0

def daysInMonth (y : Int) (m : Nat) : Nat :=
  if m = 1 ∨ m = 3 ∨ m = 5 ∨ m = 7 ∨ m = 8 ∨ m = 10 ∨ m = 12 then 31
  else if m = 4 ∨ m = 6 ∨ m = 9 ∨ m = 11 then 30
  else if m = 2 then (if isLeapYear y then 29 else 28)
  else 0

/-- Days from 1970-01-01 of a proleptic Gregorian civil date (used only for
the representable-range check of ECMAScript time values). -/
def daysFromCivil (y : Int) (m d : Nat) : Int :=
  let y2 : Int := if m ≤ 2 then y - 1 else y
  let era : Int := Int.fdiv y2 400
  let yoe : Int := y2 - era * 400
  let mp : Int := ((m : Int) + 9) % 12
  let doy : Int := Int.fdiv (153 * mp + 2) 5 + (d : Int) - 1
  let doe : Int := yoe * 365 + Int.fdiv yoe 4 - Int.fdiv yoe 100 + doy
  era * 146097 + doe - 719468

def takeDigitsExact (n : Nat) (cs : List Char) : Option (Nat × List Char) :=
  let ds := cs.take n
  if ds.length = n ∧ ds.all Char.isDigit then some (digitsVal ds, cs.drop n) else none

/-- `new Date(s)` on date-only Date Time String Format strings, returning
the civil date `(year, month, day)`; `none` is an Invalid Date. -/
def jsDateParse (s : String) : Option (Int × Nat × Nat) :=
  let cs := s.data
  let yearParse : Option (Int × List Char) :=
    match cs with
    | '+' :: r => (takeDigitsExact 6 r).map (fun p => ((p.1 : Int), p.2))
    | '-' :: r =>
      match takeDigitsExact 6 r with
      | some (n, rest) => if n = 0 then none else some ((-(n : Int)), rest)
      | none => none
    | _ => (takeDigitsExact 4 cs).map (fun p => ((p.1 : Int), p.2))
  match yearParse with
  | none => none
  | some (y, r1) =>
    let md : Option (Nat × Nat) :=
      match r1 with
      | [] => some (1, 1)
      | '-' :: r2 =>
        match takeDigitsExact 2 r2 with
        | none => none
        | some (m, r3) =>
          match r3 with
          | [] => some (m, 1)
          | '-' :: r4 =>
            match takeDigitsExact 2 r4 with
            | some (d, []) => some (m, d)
            | _ => none
          | _ => none
      | _ => none
    match md with
    | none => none
    | some (m, d) =>
      if 1 ≤ m ∧ m ≤ 12 ∧ 1 ≤ d ∧ d ≤ daysInMonth y m ∧
          (daysFromCivil y m d).natAbs ≤ 100000000 then
        some (y, m, d)
      else none

def isSepChar (c : Char) : Bool := c = '/' || c = '-' || c = '.'

/-- Anchored `^(\d{2})[\/\-\.](\d{2})[\/\-\.](\d{4})$`, groups `(day, month, year)`. -/
def anch224 (s : String) : Option (String × String × String) :=
  match s.data with
  | [a, b, s1, c, d, s2, e, f, g, h] =>
    if a.isDigit && b.isDigit && isSepChar s1 && c.isDigit && d.isDigit && isSepChar s2
        && e.isDigit && f.isDigit && g.isDigit && h.isDigit then
      some (⟨[a, b]⟩, ⟨[c, d]⟩, ⟨[e, f, g, h]⟩)
    else none
  | _ => none

/-- Anchored `^(\d{4})[\/\-\.](\d{2})[\/\-\.](\d{2})$`, groups `(year, month, day)`. -/
def anch422 (s : String) : Option (String × String × String) :=
  match s.data with
  | [a, b, c, d, s1, e, f, s2, g, h] =>
    if a.isDigit && b.isDigit && c.isDigit && d.isDigit && isSepChar s1 && e.isDigit
        && f.isDigit && isSepChar s2 && g.isDigit && h.isDigit then
      some (⟨[a, b, c, d]⟩, ⟨[e, f]⟩, ⟨[g, h]⟩)
    else none
  | _ => none

/-- Anchored `^\d{4}-\d{2}-\d{2}$` (`DATE_PATTERNS[0]` of the source). -/
def isShape4 (s : String) : Bool :=
  match s.data with
  | [a, b, c, d, h1, e, f, h2, g, h] =>
    a.isDigit && b.isDigit && c.isDigit && d.isDigit && h1 = '-' && e.isDigit && f.isDigit
      && h2 = '-' && g.isDigit && h.isDigit
  | _ => false

/-- The expanded-year shape `[+-]\d{6}-\d{2}-\d{2}`. -/
def isShapeExp (s : String) : Bool :=
  match s.data with
  | [sg, a, b, c, d, e, f, h1, g, h, h2, i, j] =>
    (sg = '+' || sg = '-') && a.isDigit && b.isDigit && c.isDigit && d.isDigit && e.isDigit
      && f.isDigit && h1 = '-' && g.isDigit && h.isDigit && h2 = '-' && i.isDigit && j.isDigit
  | _ => false

/-- `parseDate` of `src/utils/categorizationCache.ts` (lines 274–308). -/
def parseDate (clk : Clock) (dateStr : String) : String :=
  if dateStr = "" then todayStr clk
  else
    let trimmed := trimJS dateStr
    if isShape4 trimmed then trimmed
    else
      match anch224 trimmed with
      | some (d, m, y) => y ++ "-" ++ m ++ "-" ++ d
      | none =>
        match anch422 trimmed with
        | some (y, m, d) => y ++ "-" ++ m ++ "-" ++ d
        | none =>
          match jsDateParse trimmed with
          | some (y, m, d) => isoDateString y m d
          | none => todayStr clk

/-- `parseAmount`: strip `[R$\s,]`, `parseFloat`, `NaN ↦ 0`, absolute value. -/
def parseAmount (amountStr : String) : ℚ :=
  if amountStr = "" then 0
  else
    let cleaned : String := ⟨amountStr.data.filter (fun c => !(c = 'R' || c = '$' || isSpaceJS c || c = ','))⟩
    match parseFloatQ cleaned with
    | none => 0
    | some q => |q|

/-! ## CSV parsing (`parseCsv`, `src/utils/categorizationCache.ts` lines 328–459) -/

structure ParsedTransaction where
  date : String
  description : String
  amount : ℚ
  reference : Option String
deriving DecidableEq

structure ParseResult where
  transactions : List ParsedTransaction
  errors : List String
deriving DecidableEq

def csvEmptyMsg : String := "CSV file is empty"
def csvTooShortMsg : String := "CSV file must have at least a header row and one data row"
def csvNoDateMsg : String :=
  "Could not find Date column. Expected: date, transaction date, posting date, or value date"
def csvNoDescMsg : String :=
  "Could not find Description column. Expected: description, details, narration, or reference"
def csvNoAmountMsg : String :=
  "Could not find Amount column. Expected: amount, debit, credit, or value"
def csvNoTxMsg : String := "No valid transactions found in CSV file"

/-- The errors of §7 that abort the whole parse (empty input, too few lines,
unresolvable required columns). -/
def structuralMessages : List String :=
  [csvEmptyMsg, csvTooShortMsg, csvNoDateMsg, csvNoDescMsg, csvNoAmountMsg]

def findIndexAux (p : α → Bool) : List α → Nat → Int
  | [], _ => -1
  | x :: rest, i => if p x then (i : Int) else findIndexAux p rest (i + 1)

/-- `Array.prototype.findIndex` (−1 when absent). -/
def jsFindIndexB (p : α → Bool) (l : List α) : Int := findIndexAux p l 0

def findColumnAux (normalizedHeaders : List String) : List String → Int
  | [] => -1
  | name :: rest =>
    let normalized := trimJS (toLowerJS name)
    let index := jsFindIndexB
      (fun h => jsIncludes h normalized || jsIncludes normalized h) normalizedHeaders
    if index ≠ -1 then index else findColumnAux normalizedHeaders rest

/-- `findColumnIndex`: first alias (in alias order) matching any header by
bidirectional substring containment wins. -/
def findColumnIndex (headers possibleNames : List String) : Int :=
  findColumnAux (headers.map (fun h => trimJS (toLowerJS h))) possibleNames

/-- `replace(/^"|"$/g, "")` on a header cell. -/
def stripEdgeQuotes (s : String) : String :=
  let l1 := match s.data with
    | '"' :: rest => rest
    | l => l
  let l2 := match l1.reverse with
    | '"' :: rev => rev.reverse
    | _ => l1
  ⟨l2⟩

/-- Quote-aware split of a data row: a quote toggles the in-quotes state, a
comma outside quotes separates, every field is trimmed. -/
def csvSplitAux : List Char → Bool → List Char → List String → List String
  | [], _, cur, acc => acc ++ [trimJS ⟨cur.reverse⟩]
  | '"' :: rest, inQ, cur, acc => csvSplitAux rest (!inQ) cur acc
  | ',' :: rest, false, cur, acc => csvSplitAux rest false [] (acc ++ [trimJS ⟨cur.reverse⟩])
  | c :: rest, inQ, cur, acc => csvSplitAux rest inQ (c :: cur) acc

/-- `values[i] || ""` with an `Int` index (−1 and out-of-range give `""`). -/
def jsIndexGet (values : List String) (i : Int) : String :=
  if h : 0 ≤ i ∧ i.toNat < values.length then values.get ⟨i.toNat, h.2⟩ else ""

def dateAliases : List String := ["date", "transaction date", "posting date", "value date"]
def descriptionAliases : List String :=
  ["description", "details", "narration", "reference", "transaction details", "particulars",
   "memo"]
def amountAliases : List String := ["amount", "debit", "credit", "value", "transaction amount"]
def referenceAliases : List String :=
  ["reference", "ref", "transaction id", "id", "transaction reference"]

/-- The non-blank lines of the input (`split(/\r?\n/)` then drop blank). -/
def csvLines (csvContent : String) : List String :=
  (jsSplitCRLF csvContent).filter (fun l => trimJS l != "")

/-- The header cells: first line split on commas, trimmed, quote-stripped. -/
def csvHeaders (csvContent : String) : List String :=
  (jsSplitOn ',' ((csvLines csvContent).headD "")).map (fun h => stripEdgeQuotes (trimJS h))

/-- The quote-aware field values of one data row. -/
def rowValues (line : String) : List String := csvSplitAux line.data false [] []

/-- The accumulation step of the row loop: a parsed row is pushed, a skipped
row leaves the accumulator unchanged. -/
def pushRow (f : String → Option ParsedTransaction)
    (acc : List ParsedTransaction) (line : String) : List ParsedTransaction :=
  match f line with
  | some t => acc ++ [t]
  | none => acc

/-- One data row of the loop body of `parseCsv` (lines 401–452): `none` means
the row was skipped (blank, or zero amount).  The loop body is total — no
statement in the source `try` block can throw — so the per-row `catch` branch
is dead and no row-level error is ever recorded. -/
def parseCsvRow (clk : Clock) (dateIndex descriptionIndex amountIndex referenceIndex : Int)
    (line : String) : Option ParsedTransaction :=
  let values := rowValues line
  let dateStr := jsIndexGet values dateIndex
  let description := trimJS (jsIndexGet values descriptionIndex)
  let amountStr := jsIndexGet values amountIndex
  let reference : Option String :=
    if referenceIndex ≠ -1 then some (trimJS (jsIndexGet values referenceIndex)) else none
  if description = "" ∧ amountStr = "" then none
  else
    let amount := parseAmount amountStr
    let date := parseDate clk dateStr
    if amount = 0 then none
    else some { date := date, description := description, amount := amount,
                reference := reference }

/-- `parseCsv` (lines 351–459). -/
def parseCsv (clk : Clock) (csvContent : String) : ParseResult :=
  if trimJS csvContent = "" then { transactions := [], errors := [csvEmptyMsg] }
  else
    let lines := csvLines csvContent
    if lines.length < 2 then { transactions := [], errors := [csvTooShortMsg] }
    else
      let headers := csvHeaders csvContent
      let dateIndex := findColumnIndex headers dateAliases
      let descriptionIndex := findColumnIndex headers descriptionAliases
      let amountIndex := findColumnIndex headers amountAliases
      let referenceIndex := findColumnIndex headers referenceAliases
      let errs0 := (if dateIndex = -1 then [csvNoDateMsg] else []) ++
                   (if descriptionIndex = -1 then [csvNoDescMsg] else []) ++
                   (if amountIndex = -1 then [csvNoAmountMsg] else [])
      if errs0 ≠ [] then { transactions := [], errors := errs0 }
      else
        let transactions := (lines.drop 1).foldl
          (pushRow (parseCsvRow clk dateIndex descriptionIndex amountIndex referenceIndex)) []
        if transactions = [] then { transactions := [], errors := [csvNoTxMsg] }
        else { transactions := transactions, errors := [] }

/-- The claim-side row classification of §4.1: a data row is blank when both
its description and its amount field are empty. -/
def rowIsBlank (descriptionIndex amountIndex : Int) (line : String) : Bool :=
  trimJS (jsIndexGet (rowValues line) descriptionIndex) == "" &&
  jsIndexGet (rowValues line) amountIndex == ""

/-- The claim-side qualification: a row yields a transaction exactly when it
is non-blank and its parsed amount is non-zero. -/
def rowQualifies (descriptionIndex amountIndex : Int) (line : String) : Bool :=
  !rowIsBlank descriptionIndex amountIndex line &&
  parseAmount (jsIndexGet (rowValues line) amountIndex) != 0

/-- The transaction a qualifying row yields. -/
def rowTransaction (clk : Clock) (dateIndex descriptionIndex amountIndex referenceIndex : Int)
    (line : String) : ParsedTransaction :=
  { date := parseDate clk (jsIndexGet (rowValues line) dateIndex),
    description := trimJS (jsIndexGet (rowValues line) descriptionIndex),
    amount := parseAmount (jsIndexGet (rowValues line) amountIndex),
    reference := if referenceIndex ≠ -1 then
        some (trimJS (jsIndexGet (rowValues line) referenceIndex))
      else none }

/-- An ISO-8601 calendar date in `YYYY-MM-DD` form: the shape plus real
month and day ranges (used to state what C8 claims of every produced date). -/
def isValidISODate (s : String) : Bool :=
  match s.data with
  | [a, b, c, d, s1, e, f, s2, g, h] =>
    a.isDigit && b.isDigit && c.isDigit && d.isDigit && s1 = '-' && e.isDigit && f.isDigit
      && s2 = '-' && g.isDigit && h.isDigit &&
    (let y : Int := (digitsVal [a, b, c, d] : Int)
     let mo := digitsVal [e, f]
     let da := digitsVal [g, h]
     decide (1 ≤ mo) && decide (mo ≤ 12) && decide (1 ≤ da) && decide (da ≤ daysInMonth y mo))
  | _ => false

/-! ## Description normalization and the rule tier
(`src/utils/categorizationCache.ts` lines 87–247) -/

def isWordChar (c : Char) : Bool := c.isAlpha || c.isDigit || c = '_'

/-- `replace(/\s+/g, " ")`. -/
def collapseWsAux : List Char → Bool → List Char
  | [], _ => []
  | c :: rest, inRun =>
    if isSpaceJS c then
      (if inRun then collapseWsAux rest true else ' ' :: collapseWsAux rest true)
    else c :: collapseWsAux rest false

/-- `normalizeDescription`: lower-case, trim, collapse whitespace, drop
`[^\w\s]` characters — in that order, as in the source. -/
def normalizeDescription (s : String) : String :=
  ⟨(collapseWsAux (trimJS (toLowerJS s)).data false).filter
    (fun c => isWordChar c || isSpaceJS c)⟩

/-- A rule pattern is a sequence of literal pieces joined by the optional
one-character separator `[_\s]?` (this is the only regex shape in the rule
table; a one-piece pattern is a plain substring test). -/
def matchSeqAt (cs : List Char) : List (List Char) → Bool
  | [] => true
  | p :: rest =>
    if startsWithChars p cs then
      let cs2 := cs.drop p.length
      match rest with
      | [] => true
      | _ =>
        (match cs2 with
         | c :: cs3 => (if c = '_' || isSpaceJS c then matchSeqAt cs3 rest else false)
             || matchSeqAt cs2 rest
         | [] => matchSeqAt cs2 rest)
    else false

def anyPos (f : List Char → Bool) : List Char → Bool
  | [] => f []
  | c :: rest => f (c :: rest) || anyPos f rest

def testSeq (parts : List String) (s : String) : Bool :=
  anyPos (fun cs => matchSeqAt cs (parts.map String.data)) s.data

/-- The rule table of `getRuleBasedCategory`, in source order. -/
def ruleTable : List (String × List (List String)) :=
  [("groceries",
    [["checkers"], ["pick", "n", "pay"], ["woolworths"], ["spar"], ["shoprite"],
     ["food lovers"], ["dischem"], ["clicks"], ["pharmacy"], ["supermarket"], ["grocery"]]),
   ("petrol",
    [["engen"], ["shell"], ["bp"], ["sasol"], ["caltex"], ["total"], ["petrol"], ["fuel"],
     ["gas station"], ["filling station"]]),
   ("eatingOut",
    [["restaurant"], ["mcdonald"], ["kfc"], ["nandos"], ["steers"], ["debonairs"], ["pizza"],
     ["coffee"], ["cafe"], ["takeaway"], ["take", "away"], ["uber", "eats"],
     ["mr", "d", "food"]]),
   ("entertainment",
    [["netflix"], ["spotify"], ["disney"], ["showmax"], ["movie"], ["cinema"], ["theatre"],
     ["game"], ["playstation"], ["xbox"]]),
   ("rent", [["rent"], ["landlord"], ["property"], ["housing"]]),
   ("electricity", [["eskom"], ["electricity"], ["power"], ["prepaid"]]),
   ("water", [["water"], ["municipality"], ["city", "of"]]),
   ("medicalAid",
    [["medical", "aid"], ["discovery"], ["bonitas"], ["momentum"], ["hospital"], ["doctor"],
     ["clinic"]]),
   ("gym", [["gym"], ["virgin", "active"], ["planet", "fitness"], ["fitness"]]),
   ("internet",
    [["vodacom"], ["mtn"], ["cell", "c"], ["telkom"], ["afrihost"], ["webafrica"],
     ["internet"], ["fibre"], ["broadband"]])]

def ruleOnNorm (norm : String) : Option String :=
  (ruleTable.find? (fun p => p.2.any (fun pat => testSeq pat norm))).map (·.1)

/-- `getRuleBasedCategory`: first category whose pattern list matches the
normalized description. -/
def getRuleBasedCategory (description : String) : Option String :=
  ruleOnNorm (normalizeDescription description)

/-! ## The persistent categorization cache
(`src/utils/categorizationCache.ts` lines 1–81) -/

def CACHE_EXPIRY_MS : Int := 30 * 24 * 60 * 60 * 1000

structure CachedCategory where
  category : String
  confidence : ℚ
  timestamp : Int
deriving DecidableEq

/-- The string stored under the cache key of `localStorage`: absent, a string
that `JSON.parse` rejects, or a parsed cache object (an association list in
property order; integer-like-key reordering of JS objects is not modelled —
no theorem depends on entry order). -/
inductive CacheContents
  | absent
  | garbage
  | table (entries : List (String × CachedCategory))
deriving DecidableEq

structure Storage where
  contents : CacheContents
  readFails : Bool
  writeFails : Bool
deriving DecidableEq

def lookupKey : List (String × CachedCategory) → String → Option CachedCategory
  | [], _ => none
  | (k, e) :: rest, key => if k = key then some e else lookupKey rest key

/-- `delete cache[key]`. -/
def removeKey (m : List (String × CachedCategory)) (key : String) :
    List (String × CachedCategory) :=
  m.filter (fun p => p.1 != key)

/-- `cache[key] = e`: replaces in place, appends when new (JS property order). -/
def setKey : List (String × CachedCategory) → String → CachedCategory →
    List (String × CachedCategory)
  | [], key, e => [(key, e)]
  | (k, e0) :: rest, key, e =>
    if k = key then (key, e) :: rest else (k, e0) :: setKey rest key e

def getItem (st : Storage) : Except String CacheContents :=
  if st.readFails then .error "storage read failure" else .ok st.contents

def setItem (st : Storage) (c : CacheContents) : Except String Storage :=
  if st.writeFails then .error "storage write failure" else .ok { st with contents := c }

/-- Stable insertion step for sorting by timestamp descending (ties keep the
earlier entry first, as the stable `Array.prototype.sort` does). -/
def insertByTsDesc (x : String × CachedCategory) :
    List (String × CachedCategory) → List (String × CachedCategory)
  | [] => [x]
  | y :: rest => if x.2.timestamp ≥ y.2.timestamp then x :: y :: rest else y :: insertByTsDesc x rest

def sortByTsDesc : List (String × CachedCategory) → List (String × CachedCategory)
  | [] => []
  | x :: rest => insertByTsDesc x (sortByTsDesc rest)

/-- Body of `getCachedCategory` (the `try` block); a thrown error is an
`Except.error`. -/
def getCachedCategoryE (now : Int) (st : Storage) (description : String) :
    Except String (Option String × Storage) :=
  match getItem st with
  | .error e => .error e
  | .ok .absent => .ok (none, st)
  | .ok .garbage => .error "JSON parse error"
  | .ok (.table m) =>
    let key := normalizeDescription description
    match lookupKey m key with
    | none => .ok (none, st)
    | some e =>
      if now - e.timestamp > CACHE_EXPIRY_MS then
        match setItem st (.table (removeKey m key)) with
        | .error er => .error er
        | .ok st2 => .ok (none, st2)
      else .ok (some e.category, st)

/-- `getCachedCategory` (lines 22–48): the `catch` returns `undefined` and, a
throw being the only way the body exits before its single write, leaves the
store unchanged. -/
def getCachedCategory (now : Int) (st : Storage) (description : String) :
    Option String × Storage :=
  match getCachedCategoryE now st description with
  | .ok r => r
  | .error _ => (none, st)

/-- Insertion plus the 1000-entry size limit (lines 59–77): when the object
exceeds 1000 entries after the write, the most recent 1000 by timestamp are
kept (stable order) and persisted. -/
def cacheWriteBody (now : Int) (st : Storage) (key category : String) (confidence : ℚ)
    (m : List (String × CachedCategory)) : Except String Storage :=
  let m2 := setKey m key ⟨category, confidence, now⟩
  if m2.length > 1000 then
    setItem st (.table ((sortByTsDesc m2).take 1000))
  else
    setItem st (.table m2)

/-- Body of `cacheCategory` (the `try` block); an absent cache string starts
from the empty object. -/
def cacheCategoryE (now : Int) (st : Storage) (description category : String)
    (confidence : ℚ) : Except String Storage :=
  match getItem st with
  | .error e => .error e
  | .ok .garbage => .error "JSON parse error"
  | .ok .absent => cacheWriteBody now st (normalizeDescription description) category confidence []
  | .ok (.table m) => cacheWriteBody now st (normalizeDescription description) category confidence m

/-- `cacheCategory` (lines 53–81): the `catch` makes any failure a no-op. -/
def cacheCategory (now : Int) (st : Storage) (description category : String)
    (confidence : ℚ) : Storage :=
  match cacheCategoryE now st description category confidence with
  | .ok st2 => st2
  | .error _ => st

/-! ## The three-tier categorization engine
(`src/lib/openrouter.ts`, `categorizeTransactions`, lines 42–233)

The external call is the `delegate` parameter: `Except.error` is a failed
fetch/HTTP exchange, `Except.ok cats` is the list of
`{index, category, confidence}` records obtained from the response — the
source always produces such a list from a successful exchange, if necessary
through `fallbackParseCategories`. -/

structure CategorizationRequest where
  description : String
  amount : ℚ
  date : Option String
deriving DecidableEq

structure CategorizedTransaction where
  description : String
  amount : ℚ
  date : String
  category : String
  confidence : Option ℚ
deriving DecidableEq

structure Categorization where
  index : Int
  category : String
  confidence : Option ℚ
deriving DecidableEq

inductive ApiError
  | notConfigured
  | apiFailure (msg : String)
deriving DecidableEq

def VALID_CATEGORIES : List String :=
  ["groceries", "petrol", "eatingOut", "entertainment", "random", "rent",
   "electricity", "water", "medicalAid", "gym", "internet"]

/-- `t.date || today` (an empty date string is falsy). -/
def jsOrDate (d : Option String) (today : String) : String :=
  match d with
  | some s => if s = "" then today else s
  | none => today

/-- `cat.confidence || 0.8` (absent and `0` are falsy). -/
def jsOrConf (c : Option ℚ) : ℚ :=
  match c with
  | none => 4/5
  | some q => if q = 0 then 4/5 else q

/-- The per-item tier loop (lines 62–82): rule tier (with immediate cache
write), then cache tier, else the item joins `toCategorize` with its index. -/
def tierLoopAux (now : Int) : List CategorizationRequest → Nat → Storage →
    List (Option (String × ℚ)) × List (CategorizationRequest × Nat) × Storage
  | [], _, st => ([], [], st)
  | t :: rest, i, st =>
    match getRuleBasedCategory t.description with
    | some rc =>
      let st2 := cacheCategory now st t.description rc (95/100)
      let (res, toCat, st3) := tierLoopAux now rest (i + 1) st2
      (some (rc, 95/100) :: res, toCat, st3)
    | none =>
      match getCachedCategory now st t.description with
      | (some c, st2) =>
        let (res, toCat, st3) := tierLoopAux now rest (i + 1) st2
        (some (c, 9/10) :: res, toCat, st3)
      | (none, st2) =>
        let (res, toCat, st3) := tierLoopAux now rest (i + 1) st2
        (none :: res, (t, i) :: toCat, st3)

def tierLoop (now : Int) (st : Storage) (txs : List CategorizationRequest) :
    List (Option (String × ℚ)) × List (CategorizationRequest × Nat) × Storage :=
  tierLoopAux now txs 0 st

def mapWithIndexAux (f : Nat → α → β) : Nat → List α → List β
  | _, [] => []
  | i, x :: rest => f i x :: mapWithIndexAux f (i + 1) rest

def mapWithIndex (f : Nat → α → β) (l : List α) : List β := mapWithIndexAux f 0 l

/-- The early-return assembly (lines 85–93), taken when every item resolved in
tiers 1–2.  `results[idx]` is then set at every index; the default is
unreachable. -/
def earlyAssemble (clk : Clock) (txs : List CategorizationRequest)
    (results : List (Option (String × ℚ))) : List CategorizedTransaction :=
  mapWithIndex (fun idx t =>
    let r := (results.getD idx none).getD ("random", 1/2)
    { description := t.description, amount := t.amount,
      date := jsOrDate t.date (todayStr clk),
      category := r.1, confidence := some r.2 }) txs

/-- `toCategorize[cat.index - 1]` with an `Int` index. -/
def listGetInt (l : List α) (i : Int) : Option α :=
  if h : 0 ≤ i ∧ i.toNat < l.length then some (l.get ⟨i.toNat, h.2⟩) else none

/-- The cache-write pass over the delegate response (lines 166–172): every
record whose 1-based back-reference lands inside `toCategorize` is written
under that item's description with the raw returned category. -/
def delegateCacheWrites (now : Int) (st : Storage)
    (toCat : List (CategorizationRequest × Nat)) (cats : List Categorization) : Storage :=
  cats.foldl (fun st c =>
    match listGetInt toCat (c.index - 1) with
    | some item => cacheCategory now st item.1.description c.category (jsOrConf c.confidence)
    | none => st) st

/-- The final mapping (lines 184–198).  Note: it looks records up by the
position `idx + 1` in the *full* batch, although record indices refer to
positions in `toCategorize`; the correctly merged `results` array built at
lines 175–181 is never read on this path. -/
def finalAssemble (clk : Clock) (txs : List CategorizationRequest)
    (cats : List Categorization) : List CategorizedTransaction :=
  mapWithIndex (fun idx t =>
    let cat := cats.find? (fun c => c.index == (idx : Int) + 1)
    let category := match cat with
      | some c => if c.category = "" then "random" else c.category
      | none => "random"
    let validCategory := if VALID_CATEGORIES.contains category then category else "random"
    { description := t.description, amount := t.amount,
      date := jsOrDate t.date (todayStr clk),
      category := validCategory,
      confidence := cat.bind (fun c => c.confidence) }) txs

/-- `categorizeTransactions` (lines 42–205).  `configured` is
`isOpenRouterConfigured`; the result pairs the returned list with the final
store state. -/
def categorizeTransactions (configured : Bool) (now : Int) (clk : Clock) (st : Storage)
    (delegate : Except String (List Categorization)) (txs : List CategorizationRequest) :
    Except ApiError (List CategorizedTransaction × Storage) :=
  if !configured then .error .notConfigured
  else if txs.isEmpty then .ok ([], st)
  else
    let tl := tierLoop now st txs
    let results := tl.1
    let toCat := tl.2.1
    let st1 := tl.2.2
    if toCat.isEmpty then .ok (earlyAssemble clk txs results, st1)
    else
      match delegate with
      | .error msg => .error (.apiFailure msg)
      | .ok cats =>
        let st2 := delegateCacheWrites now st1 toCat cats
        .ok (finalAssemble clk txs cats, st2)

/-! ## Duplicate removal (`pdfParser.ts` lines 396–402 and 566–575)

`xs.filter((t, index, self) => index === self.findIndex(tt => dup(tt, t)))`:
an element is kept exactly when the first index of the original array holding
a duplicate of it is its own index. -/

def jsDedupAux (dup : α → α → Bool) (full : List α) : Nat → List α → List α
  | _, [] => []
  | i, t :: rest =>
    if jsFindIndexB (fun tt => dup tt t) full = (i : Int) then
      t :: jsDedupAux dup full (i + 1) rest
    else jsDedupAux dup full (i + 1) rest

def jsDedup (dup : α → α → Bool) (xs : List α) : List α := jsDedupAux dup xs 0 xs

/-- The duplicate test of the pattern-matching extractor (lines 567–575):
equal dates, amounts within 0.01, and identical descriptions or both longer
than 10 characters with equal 10-character leading substrings. -/
def isDupPM (tt t : ParsedTransaction) : Bool :=
  tt.date == t.date && decide (|tt.amount - t.amount| < (1/100 : ℚ)) &&
  (tt.description == t.description ||
    (decide (tt.description.length > 10) && decide (t.description.length > 10) &&
      tt.description.take 10 == t.description.take 10))

/-- The duplicate test of the AI extractor (lines 396–402): equal dates,
identical descriptions, amounts within 0.01. -/
def isDupAI (tt t : ParsedTransaction) : Bool :=
  tt.date == t.date && tt.description == t.description &&
    decide (|tt.amount - t.amount| < (1/100 : ℚ))

/-! ## The regex scanners of the pattern-matching extractor

Each scanner implements one concrete pattern of `pdfParser.ts` lines 446–456
with leftmost-greedy semantics; a match is `(consumed length, capture)`.
For the bounded quantifiers `\d{1,2}` followed by a separator class the width
choices have disjoint preconditions (if two digits and a separator fit, a
one-digit parse is impossible because position 1 holds a digit), so the
greedy first-fit is exact and no backtracking is required. -/

def tryDigitsThenSep (w : Nat) (cs : List Char) : Option (List Char × List Char) :=
  let ds := cs.take w
  if ds.length = w ∧ ds.all Char.isDigit then
    match cs.drop w with
    | s :: rest => if isSepChar s then some (ds, rest) else none
    | [] => none
  else none

/-- `(\d{1,2})[\/\-\.](\d{1,2})[\/\-\.](\d{2,4})` at a position, with the
three groups. -/
def matchD1PartsAt (cs : List Char) : Option (Nat × String × String × String) :=
  match tryDigitsThenSep 2 cs <|> tryDigitsThenSep 1 cs with
  | none => none
  | some (d1, r1) =>
    match tryDigitsThenSep 2 r1 <|> tryDigitsThenSep 1 r1 with
    | none => none
    | some (d2, r2) =>
      let ys := r2.takeWhile Char.isDigit
      let yl := min ys.length 4
      if yl < 2 then none
      else some (d1.length + 1 + d2.length + 1 + yl, ⟨d1⟩, ⟨d2⟩, ⟨r2.take yl⟩)

def matchD1At (cs : List Char) : Option (Nat × String) :=
  (matchD1PartsAt cs).map (fun p => (p.1, ⟨cs.take p.1⟩))

/-- `(\d{4}[\/\-\.]\d{1,2}[\/\-\.]\d{1,2})` at a position. -/
def matchD2At (cs : List Char) : Option (Nat × String) :=
  let ds := cs.take 4
  if ds.length = 4 ∧ ds.all Char.isDigit then
    match cs.drop 4 with
    | s1 :: r1 =>
      if isSepChar s1 then
        match tryDigitsThenSep 2 r1 <|> tryDigitsThenSep 1 r1 with
        | none => none
        | some (m, r2) =>
          let dl := min (r2.takeWhile Char.isDigit).length 2
          if dl < 1 then none
          else
            let total := 4 + 1 + m.length + 1 + dl
            some (total, ⟨cs.take total⟩)
      else none
    | [] => none
  else none

/-- Consumption of `(?:[,\s]\d{3})*`. -/
def groupRepsA1 : List Char → Nat
  | c :: a :: b :: d :: rest =>
    if (c = ',' || isSpaceJS c) && a.isDigit && b.isDigit && d.isDigit then
      4 + groupRepsA1 rest
    else 0
  | _ => 0

/-- Consumption of `(?:\s\d{3})*`. -/
def groupRepsA3 : List Char → Nat
  | c :: a :: b :: d :: rest =>
    if isSpaceJS c && a.isDigit && b.isDigit && d.isDigit then 4 + groupRepsA3 rest
    else 0
  | _ => 0

/-- `[R$]?\s*([-]?\d{1,3}(?:[,\s]\d{3})*(?:\.\d{2})?)` at a position; the
capture is group 1. -/
def matchA1At (cs : List Char) : Option (Nat × String) :=
  let (p1, r1) : Nat × List Char := match cs with
    | c :: rest => if c = 'R' || c = '$' then (1, rest) else (0, cs)
    | [] => (0, cs)
  let wl := (r1.takeWhile isSpaceJS).length
  let r2 := r1.drop wl
  let (p3, r3) : Nat × List Char := match r2 with
    | '-' :: rest => (1, rest)
    | _ => (0, r2)
  let dl := min (r3.takeWhile Char.isDigit).length 3
  if dl < 1 then none
  else
    let r4 := r3.drop dl
    let grpLen := groupRepsA1 r4
    let r5 := r4.drop grpLen
    let dotLen : Nat := match r5 with
      | '.' :: a :: b :: _ => if a.isDigit && b.isDigit then 3 else 0
      | _ => 0
    let capLen := p3 + dl + grpLen + dotLen
    some (p1 + wl + capLen, ⟨r2.take capLen⟩)

/-- `([-]?\d+\.\d{2})` at a position. -/
def matchA2At (cs : List Char) : Option (Nat × String) :=
  let (p1, r1) : Nat × List Char := match cs with
    | '-' :: rest => (1, rest)
    | _ => (0, cs)
  let ds := r1.takeWhile Char.isDigit
  if ds.length = 0 then none
  else
    match r1.drop ds.length with
    | '.' :: a :: b :: _ =>
      if a.isDigit && b.isDigit then
        let total := p1 + ds.length + 3
        some (total, ⟨cs.take total⟩)
      else none
    | _ => none

/-- `[R$]?\s*([-]?\d{1,3}(?:\s\d{3})*)` at a position. -/
def matchA3At (cs : List Char) : Option (Nat × String) :=
  let (p1, r1) : Nat × List Char := match cs with
    | c :: rest => if c = 'R' || c = '$' then (1, rest) else (0, cs)
    | [] => (0, cs)
  let wl := (r1.takeWhile isSpaceJS).length
  let r2 := r1.drop wl
  let (p3, r3) : Nat × List Char := match r2 with
    | '-' :: rest => (1, rest)
    | _ => (0, r2)
  let dl := min (r3.takeWhile Char.isDigit).length 3
  if dl < 1 then none
  else
    let r4 := r3.drop dl
    let grpLen := groupRepsA3 r4
    let capLen := p3 + dl + grpLen
    some (p1 + wl + capLen, ⟨r2.take capLen⟩)

/-- `String.prototype.matchAll`: leftmost matches, resuming after each match
(none of the patterns above can match the empty string, every match consumes
at least one character). -/
def matchAllAux (matchAt : List Char → Option (Nat × String)) : Nat → List Char → List String
  | 0, _ => []
  | _ + 1, [] => []
  | fuel + 1, c :: rest =>
    match matchAt (c :: rest) with
    | some (n, cap) => cap :: matchAllAux matchAt fuel ((c :: rest).drop (max n 1))
    | none => matchAllAux matchAt fuel rest

def matchAllPat (matchAt : List Char → Option (Nat × String)) (s : String) : List String :=
  matchAllAux matchAt (s.data.length + 1) s.data

/-- `RegExp.prototype.test`, modelled statelessly. -/
def testPat (matchAt : List Char → Option (Nat × String)) (s : String) : Bool :=
  !(matchAllPat matchAt s).isEmpty

inductive DatePat | d1 | d2
deriving DecidableEq

inductive AmountPat | a1 | a2 | a3
deriving DecidableEq

def dateMatchAt : DatePat → List Char → Option (Nat × String)
  | .d1 => matchD1At
  | .d2 => matchD2At

def amountMatchAt : AmountPat → List Char → Option (Nat × String)
  | .a1 => matchA1At
  | .a2 => matchA2At
  | .a3 => matchA3At

def datePats : List DatePat := [.d1, .d2]
def amountPats : List AmountPat := [.a1, .a2, .a3]

/-! ## The pattern-matching extractor
(`extractTransactionsPatternMatching`, `pdfParser.ts` lines 416–579) -/

def isPureNumber (s : String) : Bool := !s.data.isEmpty && s.data.all Char.isDigit

def codeTokenK (cs : List Char) (k : Nat) : Bool :=
  let pre := cs.take k
  let rest := cs.drop k
  pre.length == k && pre.all (fun c => 'A' ≤ c && c ≤ 'Z') && !rest.isEmpty
    && rest.all Char.isDigit

/-- `^[A-Z]{2,4}\d+$`. -/
def isCodeToken (s : String) : Bool :=
  codeTokenK s.data 2 || codeTokenK s.data 3 || codeTokenK s.data 4

/-- Description assembly for one accepted amount (lines 482–514): tokens of
the line excluding date-shaped, amount-shaped, short, pure-numeric and code
tokens; fall back to the next line, then to the literal `"Transaction"`. -/
def buildDescription (line nextLine : String) (dp : DatePat) (ap : AmountPat) : String :=
  let lineParts := jsSplitWs line
  let descriptionParts := lineParts.filter (fun part =>
    !testPat (dateMatchAt dp) part && !testPat (amountMatchAt ap) part &&
    decide (part.length > 2) && !isPureNumber part && !isCodeToken part)
  let description : String := ⟨(trimJS (String.intercalate " " descriptionParts)).data.take 150⟩
  if description = "" ∨ description.length < 3 then
    let nextLineParts := jsSplitWs nextLine
    let nextDescriptionParts := nextLineParts.filter (fun p =>
      decide (p.length > 2) && !testPat (dateMatchAt dp) p && !testPat (amountMatchAt ap) p)
    let description2 : String :=
      ⟨(trimJS (String.intercalate " " nextDescriptionParts)).data.take 150⟩
    if description2 = "" ∨ description2.length < 3 then "Transaction" else description2
  else description

def splitSepsAux : List Char → List Char → List String
  | [], cur => [⟨cur.reverse⟩]
  | c :: rest, cur =>
    if isSepChar c then ⟨cur.reverse⟩ :: splitSepsAux rest []
    else splitSepsAux rest (c :: cur)

/-- `padStart(2, "0")` on a string. -/
def strPad2 (s : String) : String :=
  if s.length ≥ 2 then s else ⟨List.replicate (2 - s.length) '0' ++ s.data⟩

/-- Date assembly of the pattern matcher (lines 516–543): split the matched
date on separators, field-width heuristic, two-digit years get `20` prefixed,
the result is validated through `new Date` and falls back to today. -/
def pmParseDate (clk : Clock) (dateStr : String) : String :=
  let parts := splitSepsAux dateStr.data []
  match parts with
  | [p0, p1, p2] =>
    let (d, m, y) : String × String × String :=
      if p0.length = 4 then (p2, p1, p0) else (p0, p1, p2)
    let year := if y.length = 2 then "20" ++ y else y
    let date := year ++ "-" ++ strPad2 m ++ "-" ++ strPad2 d
    match jsDateParse date with
    | some _ => date
    | none => todayStr clk
  | _ => todayStr clk

/-- Amount-candidate cleaning: `replace(/[,\s]/g, "").replace(/[R$]/g, "")`. -/
def cleanAmountCapture (cap : String) : String :=
  ⟨((cap.data.filter (fun c => !(c = ',' || isSpaceJS c))).filter
    (fun c => !(c = 'R' || c = '$')))⟩

/-- The inner candidate scan (lines 476–553): the first amount candidate that
is plausible — strictly between 0.01 and 1,000,000 — wins and the scan breaks. -/
def firstPlausible (caps : List String) : Option ℚ :=
  caps.findSome? (fun cap =>
    match parseFloatQ (cleanAmountCapture cap) with
    | some q => if (1/100 : ℚ) < q ∧ q < 1000000 then some q else none
    | none => none)

structure PmCtx where
  line : String
  nextLine : String
  combined : String
  dateStr : String
  dp : DatePat
deriving DecidableEq

def mkPmTx (clk : Clock) (ctx : PmCtx) (ap : AmountPat) (q : ℚ) : ParsedTransaction :=
  { date := pmParseDate clk ctx.dateStr,
    description := buildDescription ctx.line ctx.nextLine ctx.dp ap,
    amount := |q|, reference := none }

/-- The break condition of lines 555–561: stop once the transaction list is
nonempty and its last description is not the fallback `"Transaction"`. -/
def pmStop (txs : List ParsedTransaction) : Bool :=
  match txs.getLast? with
  | none => false
  | some t => t.description != "Transaction"

/-- The amount-pattern loop for one date match (lines 473–557): each pattern
contributes at most its first plausible candidate, and after each pattern the
break condition is consulted. -/
def scanAmountPatterns (clk : Clock) (ctx : PmCtx) :
    List AmountPat → List ParsedTransaction → List ParsedTransaction
  | [], txs => txs
  | ap :: rest, txs =>
    let txs2 := match firstPlausible (matchAllPat (amountMatchAt ap) ctx.combined) with
      | some q => txs ++ [mkPmTx clk ctx ap q]
      | none => txs
    if pmStop txs2 then txs2 else scanAmountPatterns clk ctx rest txs2

/-- The date-match loop (lines 469–562) with its break condition. -/
def scanDateMatches (clk : Clock) (line nextLine combined : String) (dp : DatePat) :
    List String → List ParsedTransaction → List ParsedTransaction
  | [], txs => txs
  | dateStr :: rest, txs =>
    let txs2 := scanAmountPatterns clk ⟨line, nextLine, combined, dateStr, dp⟩ amountPats txs
    if pmStop txs2 then txs2 else scanDateMatches clk line nextLine combined dp rest txs2

/-- One candidate line (lines 459–563): both date patterns are scanned, each
over its matches on the line, amounts over the previous+current+next line. -/
def processPmLine (clk : Clock) (allLines : List String) (i : Nat)
    (txs : List ParsedTransaction) : List ParsedTransaction :=
  let line := allLines.getD i ""
  let nextLine := if i + 1 < allLines.length then allLines.getD (i + 1) "" else ""
  let prevLine := if i = 0 then "" else allLines.getD (i - 1) ""
  let combined := prevLine ++ " " ++ line ++ " " ++ nextLine
  let txs1 := scanDateMatches clk line nextLine combined .d1
    (matchAllPat (dateMatchAt .d1) line) txs
  scanDateMatches clk line nextLine combined .d2 (matchAllPat (dateMatchAt .d2) line) txs1

def hasWsRun3 : List Char → Bool
  | a :: b :: c :: rest =>
    (isSpaceJS a && isSpaceJS b && isSpaceJS c) || hasWsRun3 (b :: c :: rest)
  | _ => false

/-- Candidate-line construction (lines 420–440): trimmed lines longer than 3
characters; a line containing a run of 3+ whitespace is kept and additionally
split into column fragments. -/
def buildAllLines (text : String) : List String :=
  let lines := ((jsSplitNewlines text).map trimJS).filter (fun l => decide (l.length > 3))
  lines.flatMap (fun line =>
    if hasWsRun3 line.data then
      line :: ((jsSplitWs3 line).map trimJS).filter (fun p => decide (p.length > 3))
    else [line])

/-- `extractTransactionsPatternMatching` (lines 416–579). -/
def extractTransactionsPatternMatching (clk : Clock) (text : String) :
    List ParsedTransaction :=
  let allLines := buildAllLines text
  let txs := (List.range allLines.length).foldl
    (fun txs i => processPmLine clk allLines i txs) []
  jsDedup isDupPM txs

/-! ## The AI extraction delegate
(`extractTransactionsWithAI`, `pdfParser.ts` lines 82–411)

The HTTP exchange of each chunk is the oracle `outcomes : Nat → …`: a chunk
either yields the list of raw records parsed out of the response (the
defensive JSON-extraction of lines 288–323 always produces a list, possibly
empty), or fails — with the aborted-request timeout, a 429 rate limit, or any
other error.  Raw record fields are JSON values reduced to strings; `""` is
an absent field (both are falsy in every use the source makes of them). -/

structure RawAIItem where
  date : String
  description : String
  merchant : String
  details : String
  amount : String
  reference : String
  ref : String
  transactionId : String
deriving DecidableEq

inductive ChunkFailure
  | abortTimeout
  | rateLimit
  | apiFailure (msg : String)
deriving DecidableEq

inductive ExtractionError
  | notConfigured
  | timedOut
  | rateLimited
  | chunkFailure (msg : String)
deriving DecidableEq

def remapChunkFailure : ChunkFailure → ExtractionError
  | .abortTimeout => .timedOut
  | .rateLimit => .rateLimited
  | .apiFailure msg => .chunkFailure msg

def firstTruthy (l : List String) : String :=
  match l.find? (fun s => s != "") with
  | some s => s
  | none => ""

def firstD1Parts : List Char → Option (String × String × String)
  | [] => none
  | c :: rest =>
    match matchD1PartsAt (c :: rest) with
    | some (_, d, m, y) => some (d, m, y)
    | none => firstD1Parts rest

/-- Per-item date repair of the AI validation (lines 335–355): `new Date`
first, then the first `(\d{1,2})[\/\-\.](\d{1,2})[\/\-\.](\d{2,4})` substring
rearranged without validation, then today. -/
def aiParseItemDate (clk : Clock) (dateRaw : String) : String :=
  if dateRaw = "" then todayStr clk
  else
    match jsDateParse dateRaw with
    | some (y, m, d) => isoDateString y m d
    | none =>
      match firstD1Parts dateRaw.data with
      | some (d, m, y) =>
        let year := if y.length = 2 then "20" ++ y else y
        year ++ "-" ++ strPad2 m ++ "-" ++ strPad2 d
      | none => todayStr clk

/-- Validation of one chunk's raw records (lines 331–364): coerce fields with
defaults, then keep only positive amounts with nonempty descriptions. -/
def validateAIItems (clk : Clock) (items : List RawAIItem) : List ParsedTransaction :=
  (items.map (fun t =>
    let date := aiParseItemDate clk t.date
    let description := trimJS (firstTruthy [t.description, t.merchant, t.details])
    let amount : ℚ := |(parseFloatQ t.amount).getD 0|
    let reference : Option String :=
      let r := firstTruthy [t.reference, t.ref, t.transactionId]
      if r = "" then none else some r
    { date := date, description := description, amount := amount,
      reference := reference })).filter
    (fun t => decide (t.amount > 0) && decide (t.description.length > 0))

def maxChunkSize : Nat := 12000

def chunkAccum : List String → String → List String → List String
  | [], cur, acc => if cur.length > 0 then acc ++ [cur] else acc
  | line :: rest, cur, acc =>
    if cur.length + line.length > maxChunkSize ∧ cur.length > 0 then
      chunkAccum rest (line ++ "\n") (acc ++ [cur])
    else chunkAccum rest (cur ++ line ++ "\n") acc

/-- Chunking (lines 90–117): inputs over the threshold are split on line
boundaries into chunks each kept under the threshold. -/
def chunkText (text : String) : List String :=
  if text.length > maxChunkSize then chunkAccum (jsSplitOn '\n' text) "" []
  else [text]

/-- The per-chunk loop (lines 121–390).  A timeout (`AbortError`) is rethrown
for *every* chunk index (lines 372–375); any other failure is rethrown only
for the first chunk (lines 384–388) and otherwise skipped. -/
def processAIChunksAux (clk : Clock) (outcomes : Nat → Except ChunkFailure (List RawAIItem)) :
    Nat → Nat → List ParsedTransaction → Except ExtractionError (List ParsedTransaction)
  | _, 0, acc => .ok acc
  | i, remaining + 1, acc =>
    match outcomes i with
    | .ok items => processAIChunksAux clk outcomes (i + 1) remaining (acc ++ validateAIItems clk items)
    | .error e =>
      if e = ChunkFailure.abortTimeout then .error .timedOut
      else if i = 0 then .error (remapChunkFailure e)
      else processAIChunksAux clk outcomes (i + 1) remaining acc

/-- The chunk loop followed by the cross-chunk dedup pass (lines 394–410).
Chunk contents feed only the prompt; the oracle is indexed by chunk number. -/
def processAIChunks (clk : Clock) (chunks : List String)
    (outcomes : Nat → Except ChunkFailure (List RawAIItem)) :
    Except ExtractionError (List ParsedTransaction) :=
  (processAIChunksAux clk outcomes 0 chunks.length []).map (jsDedup isDupAI)

/-- `extractTransactionsWithAI` (lines 82–411). -/
def extractTransactionsWithAI (configured : Bool) (clk : Clock) (text : String)
    (outcomes : Nat → Except ChunkFailure (List RawAIItem)) :
    Except ExtractionError (List ParsedTransaction) :=
  if configured then processAIChunks clk (chunkText text) outcomes
  else .error .notConfigured

/-! ## Auxiliary definitions used by the theorems -/

/-- A concrete current date (2024-05-06) for witnesses and counterexamples. -/
def clk2024 : Clock :=
  ⟨2024, 5, 6, by norm_num, by norm_num, by norm_num, by norm_num, by norm_num, by norm_num⟩

/-- A healthy store holding an empty cache object. -/
def emptyStore : Storage := ⟨.table [], false, false⟩

/-- Lookup through the storage layer (used to state cache-content claims). -/
def storeLookup (st : Storage) (key : String) : Option CachedCategory :=
  match st.contents with
  | .table m => lookupKey m key
  | _ => none

/-- The transactions contributed by chunks `i, i+1, …, i+r−1`: each
successful chunk adds its validated records in order, each failed chunk adds
nothing. -/
def contributionsFrom (clk : Clock) (outcomes : Nat → Except ChunkFailure (List RawAIItem)) :
    Nat → Nat → List ParsedTransaction
  | _, 0 => []
  | i, r + 1 =>
    (match outcomes i with
     | .ok items => validateAIItems clk items
     | .error _ => []) ++ contributionsFrom clk outcomes (i + 1) r

/-- A raw delegate record used in the chunk-loop scenarios. -/
def chunkOkItem : RawAIItem := ⟨"2024-01-15", "SHOP ONE", "", "", "250.50", "", "", ""⟩

/-- First chunk succeeds, all later chunks time out. -/
def outcomesLaterTimeout : Nat → Except ChunkFailure (List RawAIItem)
  | 0 => .ok [chunkOkItem]
  | _ + 1 => .error .abortTimeout

/-- Recursive formulation of the `filter`/`findIndex` dedup: an element is
kept when no previously seen element (kept or dropped) duplicates it.  Under
reflexivity of the duplicate test this coincides with `jsDedup` (proved
below); it exists to give the idempotence proof an induction structure. -/
def dedupSeen (dup : α → α → Bool) (seen : List α) : List α → List α
  | [] => []
  | t :: rest =>
    if seen.any (fun tt => dup tt t) then dedupSeen dup (seen ++ [t]) rest
    else t :: dedupSeen dup (seen ++ [t]) rest

/-! ## Lemmas about `jsDedup` -/

theorem findIndexAux_append_none (p : α → Bool) (seen : List α) (rest : List α)
    (h : ∀ x ∈ seen, p x = false) :
    ∀ i : Nat, findIndexAux p (seen ++ rest) i = findIndexAux p rest (i + seen.length) := by
  induction seen with
  | nil => intro i; simp [findIndexAux]
  | cons a as ih =>
    intro i
    have ha : p a = false := h a (by simp)
    have has : ∀ x ∈ as, p x = false := fun x hx => h x (by simp [hx])
    simp only [List.cons_append, findIndexAux, ha, if_false, Bool.false_eq_true,
      List.append_eq]
    rw [ih has (i + 1)]
    congr 1
    simp [List.length_cons]
    omega

theorem findIndexAux_of_any (p : α → Bool) (seen rest : List α)
    (h : seen.any p = true) :
    ∀ i : Nat, ∃ j : Nat, j < seen.length ∧
      findIndexAux p (seen ++ rest) i = ((i + j : Nat) : Int) := by
  induction seen with
  | nil => simp at h
  | cons a as ih =>
    intro i
    by_cases hpa : p a = true
    · exact ⟨0, by simp, by simp [findIndexAux, hpa]⟩
    · have has : as.any p = true := by
        rcases List.any_eq_true.mp h with ⟨x, hx, hpx⟩
        rcases List.mem_cons.mp hx with rfl | hx2
        · exact absurd hpx hpa
        · exact List.any_eq_true.mpr ⟨x, hx2, hpx⟩
      rcases ih has (i + 1) with ⟨j, hj, heq⟩
      refine ⟨j + 1, by simpa using Nat.succ_lt_succ hj, ?_⟩
      simp only [List.cons_append, findIndexAux, hpa, List.append_eq]
      rw [if_neg (by simp [hpa]), heq]
      congr 1
      omega

theorem jsFindIndexB_prefix_none (p : α → Bool) (seen : List α) (t : α) (rest : List α)
    (h : ∀ x ∈ seen, p x = false) (hpt : p t = true) :
    jsFindIndexB p (seen ++ t :: rest) = (seen.length : Int) := by
  unfold jsFindIndexB
  rw [findIndexAux_append_none p seen _ h 0]
  simp [findIndexAux, hpt]

theorem jsFindIndexB_prefix_any (p : α → Bool) (seen rest : List α)
    (h : seen.any p = true) :
    jsFindIndexB p (seen ++ rest) ≠ (seen.length : Int) := by
  unfold jsFindIndexB
  rcases findIndexAux_of_any p seen rest h 0 with ⟨j, hj, heq⟩
  rw [heq]
  intro hcontra
  have : (0 + j : Nat) = seen.length := by exact_mod_cast hcontra
  omega

theorem jsDedupAux_eq_dedupSeen (dup : α → α → Bool) (hrefl : ∀ t, dup t t = true) :
    ∀ (rest seen : List α),
      jsDedupAux dup (seen ++ rest) seen.length rest = dedupSeen dup seen rest := by
  intro rest
  induction rest with
  | nil => intro seen; rfl
  | cons t rest ih =>
    intro seen
    by_cases h : seen.any (fun tt => dup tt t) = true
    · have hne := jsFindIndexB_prefix_any (fun tt => dup tt t) seen (t :: rest) h
      simp only [jsDedupAux, dedupSeen, h, if_true, if_neg hne]
      have := ih (seen ++ [t])
      simpa [List.append_assoc, List.length_append] using this
    · have h2 : ∀ x ∈ seen, dup x t = false := by
        intro x hx
        by_contra hc
        exact h (List.any_eq_true.mpr ⟨x, hx, by simpa using hc⟩)
      have heq := jsFindIndexB_prefix_none (fun tt => dup tt t) seen t rest h2 (hrefl t)
      simp only [jsDedupAux, dedupSeen, h, if_false, if_pos heq, Bool.false_eq_true]
      have := ih (seen ++ [t])
      refine congrArg (t :: ·) ?_
      simpa [List.append_assoc, List.length_append] using this

theorem jsDedup_eq_dedupSeen (dup : α → α → Bool) (hrefl : ∀ t, dup t t = true)
    (xs : List α) : jsDedup dup xs = dedupSeen dup [] xs := by
  have := jsDedupAux_eq_dedupSeen dup hrefl xs []
  simpa [jsDedup] using this

theorem dedupSeen_idem (dup : α → α → Bool) :
    ∀ (xs seen seen2 : List α), (∀ x ∈ seen2, x ∈ seen) →
      dedupSeen dup seen2 (dedupSeen dup seen xs) = dedupSeen dup seen xs := by
  intro xs
  induction xs with
  | nil => intro seen seen2 _; rfl
  | cons x rest ih =>
    intro seen seen2 hsub
    by_cases h : seen.any (fun tt => dup tt x) = true
    · simp only [dedupSeen, h, if_true]
      exact ih (seen ++ [x]) seen2 (fun y hy => by simp [hsub y hy])
    · have h2 : seen2.any (fun tt => dup tt x) = false := by
        rw [Bool.eq_false_iff]
        intro hc
        rcases List.any_eq_true.mp hc with ⟨y, hy, hdup⟩
        exact h (List.any_eq_true.mpr ⟨y, hsub y hy, hdup⟩)
      simp only [dedupSeen, h, if_false, h2, Bool.false_eq_true]
      refine congrArg (x :: ·) ?_
      exact ih (seen ++ [x]) (seen2 ++ [x])
          (fun y hy => by
            rcases List.mem_append.mp hy with hy2 | hy2
            · simp [hsub y hy2]
            · simp [List.mem_singleton.mp hy2])

theorem isDupPM_refl (t : ParsedTransaction) : isDupPM t t = true := by
  simp [isDupPM]

/-- **C9** — The duplicate-removal pass of the pattern-matching extractor
(dates equal, amounts within 0.01, descriptions identical or sharing a
10-character prefix with both longer than 10; first occurrence kept) is
idempotent. -/
theorem C9_dedup_idempotent (xs : List ParsedTransaction) :
    jsDedup isDupPM (jsDedup isDupPM xs) = jsDedup isDupPM xs := by
  rw [jsDedup_eq_dedupSeen isDupPM isDupPM_refl xs,
    jsDedup_eq_dedupSeen isDupPM isDupPM_refl,
    dedupSeen_idem isDupPM xs [] [] (fun x hx => hx)]

/-! ## Cache claims (C7, C10) -/

/-- **C7** — `getCachedCategory` never returns an entry more than 30 days
older than the current time: a hit always comes from a stored entry at the
normalized key aged at most the retention window (first conjunct), and
looking up an expired entry on a healthy store is a miss that removes that
entry from the underlying store (second conjunct). -/
theorem C7_cache_expiry :
    (∀ (now : Int) (st : Storage) (desc cat : String),
      (getCachedCategory now st desc).1 = some cat →
      ∃ m e, st.contents = .table m ∧
        lookupKey m (normalizeDescription desc) = some e ∧
        e.category = cat ∧ now - e.timestamp ≤ CACHE_EXPIRY_MS) ∧
    (∀ (now : Int) (st : Storage) (desc : String)
      (m : List (String × CachedCategory)) (e : CachedCategory),
      st.contents = .table m → st.readFails = false → st.writeFails = false →
      lookupKey m (normalizeDescription desc) = some e →
      now - e.timestamp > CACHE_EXPIRY_MS →
      getCachedCategory now st desc =
        (none, { st with contents := .table (removeKey m (normalizeDescription desc)) })) := by
  constructor
  · intro now st desc cat h
    by_cases hr : st.readFails
    · simp [getCachedCategory, getCachedCategoryE, getItem, hr] at h
    · cases hc : st.contents with
      | absent => simp [getCachedCategory, getCachedCategoryE, getItem, hr, hc] at h
      | garbage => simp [getCachedCategory, getCachedCategoryE, getItem, hr, hc] at h
      | table m =>
        cases hl : lookupKey m (normalizeDescription desc) with
        | none => simp [getCachedCategory, getCachedCategoryE, getItem, hr, hc, hl] at h
        | some e =>
          by_cases hexp : now - e.timestamp > CACHE_EXPIRY_MS
          · by_cases hw : st.writeFails <;>
              simp [getCachedCategory, getCachedCategoryE, getItem, setItem,
                hr, hc, hl, hexp, hw] at h
          · refine ⟨m, e, by simp [hc], hl, ?_, by omega⟩
            simp [getCachedCategory, getCachedCategoryE, getItem, hr, hc, hl, hexp] at h
            exact h
  · intro now st desc m e hc hr hw hl hexp
    simp [getCachedCategory, getCachedCategoryE, getItem, setItem, hr, hc, hl, hexp, hw]

set_option maxRecDepth 40000 in
/-- Witness for C7: an entry written at `T = 1000` and queried at
`T + 30 days + 1 ms` is a miss, and the lookup erases it from the store. -/
theorem C7_cache_expiry_witness :
    getCachedCategory 2592001001 ⟨.table [("shop", ⟨"groceries", 9/10, 1000⟩)], false, false⟩
        "Shop" =
      (none, ⟨.table [], false, false⟩) := by
  have h := C7_cache_expiry.2 2592001001
    ⟨.table [("shop", ⟨"groceries", 9/10, 1000⟩)], false, false⟩ "Shop"
    [("shop", ⟨"groceries", 9/10, 1000⟩)] ⟨"groceries", 9/10, 1000⟩
    rfl rfl rfl (by with_unfolding_all decide) (by decide)
  exact h.trans (by with_unfolding_all decide)

/-- **C10** — `getCachedCategory` and `cacheCategory` never propagate a
failure: a storage read fault, an unparseable cache string, or a storage
write fault each make the lookup return `undefined` with the store unchanged
and make the write a silent no-op. -/
theorem C10_cache_never_throws :
    (∀ (now : Int) (st : Storage) (desc : String), st.readFails = true →
      getCachedCategory now st desc = (none, st) ∧
      ∀ (cat : String) (conf : ℚ), cacheCategory now st desc cat conf = st) ∧
    (∀ (now : Int) (st : Storage) (desc : String), st.contents = .garbage →
      getCachedCategory now st desc = (none, st) ∧
      ∀ (cat : String) (conf : ℚ), cacheCategory now st desc cat conf = st) ∧
    (∀ (now : Int) (st : Storage) (desc cat : String) (conf : ℚ), st.writeFails = true →
      cacheCategory now st desc cat conf = st) := by
  refine ⟨?_, ?_, ?_⟩
  · intro now st desc hr
    constructor
    · simp [getCachedCategory, getCachedCategoryE, getItem, hr]
    · intro cat conf
      simp [cacheCategory, cacheCategoryE, getItem, hr]
  · intro now st desc hc
    by_cases hr : st.readFails
    · constructor
      · simp [getCachedCategory, getCachedCategoryE, getItem, hr]
      · intro cat conf
        simp [cacheCategory, cacheCategoryE, getItem, hr]
    · constructor
      · simp [getCachedCategory, getCachedCategoryE, getItem, hr, hc]
      · intro cat conf
        simp [cacheCategory, cacheCategoryE, getItem, hr, hc]
  · intro now st desc cat conf hw
    by_cases hr : st.readFails
    · simp [cacheCategory, cacheCategoryE, getItem, hr]
    · cases hc : st.contents <;>
        simp [cacheCategory, cacheCategoryE, cacheWriteBody, getItem, setItem, hr, hc, hw]

/-- Witness for C10: a store whose reads fail yields a miss and ignores a
write. -/
theorem C10_cache_never_throws_witness :
    getCachedCategory 0 ⟨.table [], true, false⟩ "Shop" = (none, ⟨.table [], true, false⟩) ∧
    cacheCategory 0 ⟨.table [], true, false⟩ "Shop" "groceries" (9/10) =
      ⟨.table [], true, false⟩ := by
  have h := C10_cache_never_throws.1 0 ⟨.table [], true, false⟩ "Shop" rfl
  exact ⟨h.1, h.2 "groceries" (9/10)⟩

/-! ## Categorization engine claims (C1, C2) -/

/-- Counterexample to **C1** as stated: with the delegate unconfigured, a
batch whose single item is resolved by the rule tier (its description matches
the groceries rules) still fails with the not-configured error — the source
throws before the tiers run, so rule/cache hits do not avoid the requirement
and the 3-item scenario raises the exception instead of categorizing items
1–2. -/
theorem C1_counterexample :
    categorizeTransactions false 0 clk2024 emptyStore (.ok [])
        [⟨"Checkers Sandton", 100, none⟩] = .error .notConfigured ∧
    getRuleBasedCategory "Checkers Sandton" = some "groceries" := by
  constructor
  · rfl
  · with_unfolding_all decide

/-- **C1 amended** — `categorizeTransactions` fails with the not-configured
error for *every* batch whenever the delegate is unconfigured, even one fully
resolved by the rule/cache tiers; when it is configured and every item
resolves in tiers 1–2, the call succeeds with the tier-1/2 results and never
consults the delegate (the result is the same for any two delegate
behaviours). -/
theorem C1_amended :
    (∀ (now : Int) (clk : Clock) (st : Storage) (delegate : Except String (List Categorization))
      (txs : List CategorizationRequest),
      categorizeTransactions false now clk st delegate txs = .error .notConfigured) ∧
    (∀ (now : Int) (clk : Clock) (st : Storage)
      (d1 d2 : Except String (List Categorization)) (txs : List CategorizationRequest),
      (tierLoop now st txs).2.1 = [] →
      categorizeTransactions true now clk st d1 txs =
        .ok (if txs.isEmpty then ([], st)
             else (earlyAssemble clk txs (tierLoop now st txs).1, (tierLoop now st txs).2.2)) ∧
      categorizeTransactions true now clk st d1 txs =
        categorizeTransactions true now clk st d2 txs) := by
  constructor
  · intro now clk st delegate txs
    simp [categorizeTransactions]
  · intro now clk st d1 d2 txs htoCat
    by_cases he : txs.isEmpty
    · constructor <;> simp [categorizeTransactions, he]
    · constructor <;> simp [categorizeTransactions, he, htoCat]

/-- Witness for the amended C1: a configured call on a rule-resolvable batch
succeeds identically under a failing and a succeeding delegate. -/
theorem C1_amended_witness :
    categorizeTransactions true 77 clk2024 emptyStore (.error "boom")
        [⟨"Checkers Sandton", 100, none⟩] =
      .ok (if ([⟨"Checkers Sandton", 100, none⟩] : List CategorizationRequest).isEmpty
           then ([], emptyStore)
           else (earlyAssemble clk2024 [⟨"Checkers Sandton", 100, none⟩]
                   (tierLoop 77 emptyStore [⟨"Checkers Sandton", 100, none⟩]).1,
                 (tierLoop 77 emptyStore [⟨"Checkers Sandton", 100, none⟩]).2.2)) ∧
    categorizeTransactions true 77 clk2024 emptyStore (.error "boom")
        [⟨"Checkers Sandton", 100, none⟩] =
      categorizeTransactions true 77 clk2024 emptyStore (.ok [⟨1, "internet", some (1/2)⟩])
        [⟨"Checkers Sandton", 100, none⟩] :=
  C1_amended.2 77 clk2024 emptyStore (.error "boom") (.ok [⟨1, "internet", some (1/2)⟩])
    [⟨"Checkers Sandton", 100, none⟩] (by with_unfolding_all decide)

/-- **C2** (code bug) — evaluation at the failing input: a 2-item batch whose
first item matches the groceries rule and whose second item reaches the
delegate, with the delegate answering `{index 1, internet, 0.9}` for that
second item.  The returned list pairs position 0 (the rule-matched item) with
the delegate's category `internet` at confidence 0.9 instead of `groceries`
at 0.95, and position 1 falls back to `random`; the cache, by contrast,
holds the correct per-item results. -/
theorem C2_code_eval :
    categorizeTransactions true 77 clk2024 emptyStore
        (.ok [⟨1, "internet", some (9/10)⟩])
        [⟨"Checkers Sandton", 100, none⟩, ⟨"zzqq", 50, none⟩] =
      .ok ([⟨"Checkers Sandton", 100, "2024-05-06", "internet", some (9/10)⟩,
            ⟨"zzqq", 50, "2024-05-06", "random", none⟩],
           ⟨.table [("checkers sandton", ⟨"groceries", 95/100, 77⟩),
                    ("zzqq", ⟨"internet", 9/10, 77⟩)], false, false⟩) ∧
    getRuleBasedCategory "Checkers Sandton" = some "groceries" ∧
    ("internet" : String) ≠ "groceries" := by
  refine ⟨?_, by with_unfolding_all decide, by decide⟩
  with_unfolding_all decide

/-! ## Lemmas about cache writes (for C4) -/

theorem setKey_length (key : String) (e : CachedCategory) :
    ∀ m : List (String × CachedCategory), (setKey m key e).length ≤ m.length + 1 := by
  intro m
  induction m with
  | nil => simp [setKey]
  | cons p rest ih =>
    by_cases h : p.1 = key
    · simp only [setKey]
      rw [if_pos (by exact h)]
      simp
    · simp only [setKey]
      rw [if_neg (by exact h)]
      simpa using ih

theorem lookupKey_setKey_self (key : String) (e : CachedCategory) :
    ∀ m : List (String × CachedCategory), lookupKey (setKey m key e) key = some e := by
  intro m
  induction m with
  | nil => simp [setKey, lookupKey]
  | cons p rest ih =>
    by_cases h : p.1 = key
    · simp only [setKey]
      rw [if_pos (by exact h)]
      simp [lookupKey]
    · simp only [setKey]
      rw [if_neg (by exact h)]
      simpa [lookupKey, h] using ih

theorem lookupKey_setKey_other (key k2 : String) (e : CachedCategory) (hne : k2 ≠ key) :
    ∀ m : List (String × CachedCategory),
      lookupKey (setKey m k2 e) key = lookupKey m key := by
  intro m
  induction m with
  | nil => simp [setKey, lookupKey, hne]
  | cons p rest ih =>
    by_cases h : p.1 = k2
    · simp only [setKey]
      rw [if_pos (by exact h)]
      simp [lookupKey, hne, h]
    · simp only [setKey]
      rw [if_neg (by exact h)]
      simp only [lookupKey]
      by_cases h2 : p.1 = key
      · rw [if_pos (by exact h2), if_pos (by exact h2)]
      · rw [if_neg (by exact h2), if_neg (by exact h2)]
        exact ih

/-- A healthy, non-overflowing `cacheCategory` call is exactly `setKey` on the
parsed object. -/
theorem cacheCategory_healthy (now : Int) (st : Storage) (desc cat : String) (conf : ℚ)
    (m : List (String × CachedCategory))
    (hr : st.readFails = false) (hw : st.writeFails = false) (hc : st.contents = .table m)
    (hsz : (setKey m (normalizeDescription desc) ⟨cat, conf, now⟩).length ≤ 1000) :
    cacheCategory now st desc cat conf =
      { st with contents := .table (setKey m (normalizeDescription desc) ⟨cat, conf, now⟩) } := by
  have hgt : ¬ (setKey m (normalizeDescription desc) ⟨cat, conf, now⟩).length > 1000 := by omega
  simp [cacheCategory, cacheCategoryE, cacheWriteBody, getItem, setItem, hr, hw, hc, hgt]

/-- Shape of the delegate cache-write fold on a healthy store whose size
cannot reach the eviction limit: the store stays a table, faults unchanged,
and it grows by at most one entry per record. -/
theorem delegateCacheWrites_shape (now : Int) (toCat : List (CategorizationRequest × Nat)) :
    ∀ (cats : List Categorization) (st : Storage) (m : List (String × CachedCategory)),
      st.readFails = false → st.writeFails = false → st.contents = .table m →
      m.length + cats.length ≤ 1000 →
      ∃ m2, delegateCacheWrites now st toCat cats =
          { st with contents := .table m2 } ∧ m2.length ≤ m.length + cats.length := by
  intro cats
  induction cats with
  | nil =>
    intro st m hr hw hc _
    exact ⟨m, by simp [delegateCacheWrites, ← hc], by omega⟩
  | cons c rest ih =>
    intro st m hr hw hc hsz
    cases hitem : listGetInt toCat (c.index - 1) with
    | none =>
      have step : delegateCacheWrites now st toCat (c :: rest) =
          delegateCacheWrites now st toCat rest := by
        simp [delegateCacheWrites, hitem]
      rw [step]
      rcases ih st m hr hw hc (by simp at hsz ⊢; omega) with ⟨m2, heq, hlen⟩
      exact ⟨m2, heq, by simp at hsz ⊢; omega⟩
    | some item =>
      have hk := setKey_length (normalizeDescription item.1.description)
        ⟨c.category, jsOrConf c.confidence, now⟩ m
      have hwrite := cacheCategory_healthy now st item.1.description c.category
        (jsOrConf c.confidence) m hr hw hc (by simp at hsz; omega)
      have step : delegateCacheWrites now st toCat (c :: rest) =
          delegateCacheWrites now
            { st with contents := .table (setKey m (normalizeDescription item.1.description)
                ⟨c.category, jsOrConf c.confidence, now⟩) } toCat rest := by
        simp [delegateCacheWrites, hitem, hwrite]
      rw [step]
      rcases ih { st with contents := .table (setKey m (normalizeDescription item.1.description)
            ⟨c.category, jsOrConf c.confidence, now⟩) }
          (setKey m (normalizeDescription item.1.description)
            ⟨c.category, jsOrConf c.confidence, now⟩)
          hr hw rfl (by simp at hsz ⊢; omega) with ⟨m2, heq, hlen⟩
      exact ⟨m2, heq, by simp at hsz hlen ⊢; omega⟩

/-- An entry stamped `now` survives any suffix of the delegate write fold
(later writes to the same key are also stamped `now`). -/
theorem delegateCacheWrites_keeps_now (now : Int) (toCat : List (CategorizationRequest × Nat))
    (key : String) :
    ∀ (cats : List Categorization) (st : Storage) (m : List (String × CachedCategory))
      (e : CachedCategory),
      st.readFails = false → st.writeFails = false → st.contents = .table m →
      lookupKey m key = some e → e.timestamp = now →
      m.length + cats.length ≤ 1000 →
      ∃ e2, storeLookup (delegateCacheWrites now st toCat cats) key = some e2 ∧
        e2.timestamp = now := by
  intro cats
  induction cats with
  | nil =>
    intro st m e hr hw hc hl ht _
    refine ⟨e, ?_, ht⟩
    simp [delegateCacheWrites, storeLookup, hc, hl]
  | cons c rest ih =>
    intro st m e hr hw hc hl ht hsz
    cases hitem : listGetInt toCat (c.index - 1) with
    | none =>
      have step : delegateCacheWrites now st toCat (c :: rest) =
          delegateCacheWrites now st toCat rest := by
        simp [delegateCacheWrites, hitem]
      rw [step]
      exact ih st m e hr hw hc hl ht (by simp at hsz ⊢; omega)
    | some item =>
      have hwrite := cacheCategory_healthy now st item.1.description c.category
        (jsOrConf c.confidence) m hr hw hc
        (by have := setKey_length (normalizeDescription item.1.description)
              ⟨c.category, jsOrConf c.confidence, now⟩ m
            simp at hsz; omega)
      have step : delegateCacheWrites now st toCat (c :: rest) =
          delegateCacheWrites now
            { st with contents := .table (setKey m (normalizeDescription item.1.description)
                ⟨c.category, jsOrConf c.confidence, now⟩) } toCat rest := by
        simp [delegateCacheWrites, hitem, hwrite]
      rw [step]
      by_cases hkey : normalizeDescription item.1.description = key
      · refine ih _ _ ⟨c.category, jsOrConf c.confidence, now⟩ hr hw rfl ?_ rfl ?_
        · rw [← hkey]
          exact lookupKey_setKey_self _ _ m
        · have := setKey_length (normalizeDescription item.1.description)
            ⟨c.category, jsOrConf c.confidence, now⟩ m
          simp at hsz ⊢; omega
      · refine ih _ _ e hr hw rfl ?_ ht ?_
        · rw [lookupKey_setKey_other key _ _ hkey m]
          exact hl
        · have := setKey_length (normalizeDescription item.1.description)
            ⟨c.category, jsOrConf c.confidence, now⟩ m
          simp at hsz ⊢; omega

theorem mapWithIndexAux_get? (f : Nat → α → β) :
    ∀ (l : List α) (k i : Nat),
      (mapWithIndexAux f k l).get? i = (l.get? i).map (f (k + i)) := by
  intro l
  induction l with
  | nil => intro k i; simp [mapWithIndexAux]
  | cons x rest ih =>
    intro k i
    cases i with
    | zero => simp [mapWithIndexAux]
    | succ i =>
      simp only [mapWithIndexAux, List.get?_cons_succ]
      rw [ih (k + 1) i]
      have : k + 1 + i = k + (i + 1) := by omega
      rw [this]

theorem mapWithIndex_get? (f : Nat → α → β) (l : List α) (i : Nat) :
    (mapWithIndex f l).get? i = (l.get? i).map (f i) := by
  simpa using mapWithIndexAux_get? f l 0 i

/-! ## Delegate-tier claims (C4) -/

/-- Counterexample to **C4** as stated: a single-item delegate batch answered
with the out-of-vocabulary category `notacategory` at confidence 0.9 (plus a
stray record with the out-of-range index 5).  The returned item is coerced to
`random` but keeps confidence 0.9 — not 0.5 — and the cache receives only the
in-range record (with its raw category); the index-5 record is not written. -/
theorem C4_counterexample :
    categorizeTransactions true 77 clk2024 emptyStore
        (.ok [⟨1, "notacategory", some (9/10)⟩, ⟨5, "groceries", some (9/10)⟩])
        [⟨"zzqq", 50, none⟩] =
      .ok ([⟨"zzqq", 50, "2024-05-06", "random", some (9/10)⟩],
           ⟨.table [("zzqq", ⟨"notacategory", 9/10, 77⟩)], false, false⟩) ∧
    (9/10 : ℚ) ≠ 1/2 := by
  refine ⟨?_, by norm_num⟩
  with_unfolding_all decide

/-- **C4 amended** — In the delegate tier: (i) for a nonempty fall-through
set, the call returns the final mapping and the delegate-written store;
(ii) an item whose looked-up record carries a category outside the valid
vocabulary is returned as the fallback `random` while keeping the record's
confidence (it is not reset to 0.5); (iii) every record whose 1-based index
lands inside the fall-through set is written into the cache — afterwards the
item's normalized description maps to an entry stamped with the current
time (on a healthy store below the eviction limit). -/
theorem C4_amended :
    (∀ (now : Int) (clk : Clock) (st : Storage) (cats : List Categorization)
      (txs : List CategorizationRequest),
      txs ≠ [] → (tierLoop now st txs).2.1 ≠ [] →
      categorizeTransactions true now clk st (.ok cats) txs =
        .ok (finalAssemble clk txs cats,
             delegateCacheWrites now (tierLoop now st txs).2.2 (tierLoop now st txs).2.1 cats)) ∧
    (∀ (clk : Clock) (txs : List CategorizationRequest) (cats : List Categorization)
      (idx : Nat) (t : CategorizationRequest) (c : Categorization),
      txs.get? idx = some t →
      cats.find? (fun cc => cc.index == (idx : Int) + 1) = some c →
      c.category ∉ VALID_CATEGORIES →
      (finalAssemble clk txs cats).get? idx =
        some ⟨t.description, t.amount, jsOrDate t.date (todayStr clk), "random",
          c.confidence⟩) ∧
    (∀ (now : Int) (st : Storage) (toCat : List (CategorizationRequest × Nat))
      (cats : List Categorization) (m : List (String × CachedCategory))
      (c : Categorization) (item : CategorizationRequest × Nat),
      st.readFails = false → st.writeFails = false → st.contents = .table m →
      m.length + cats.length ≤ 1000 →
      c ∈ cats → listGetInt toCat (c.index - 1) = some item →
      ∃ e, storeLookup (delegateCacheWrites now st toCat cats)
          (normalizeDescription item.1.description) = some e ∧ e.timestamp = now) := by
  refine ⟨?_, ?_, ?_⟩
  · intro now clk st cats txs htxs htoCat
    have h1 : txs.isEmpty = false := by
      cases txs with
      | nil => exact absurd rfl htxs
      | cons a b => rfl
    have h2 : (tierLoop now st txs).2.1.isEmpty = false := by
      cases h : (tierLoop now st txs).2.1 with
      | nil => exact absurd h htoCat
      | cons a b => simp [h]
    simp [categorizeTransactions, h1, h2]
  · intro clk txs cats idx t c hget hfind hvalid
    have hcontains : VALID_CATEGORIES.contains c.category = false := by
      simpa using hvalid
    simp only [finalAssemble, mapWithIndex_get?, hget, Option.map_some, hfind]
    by_cases hemp : c.category = ""
    · simp [hemp]
    · simp [hemp, hcontains]
      exact fun hmem2 => absurd hmem2 hvalid
  · intro now st toCat cats m c item hr hw hc hsz hmem hitem
    rcases List.append_of_mem hmem with ⟨l1, l2, rfl⟩
    have hlen : m.length + l1.length ≤ 1000 := by simp at hsz; omega
    rcases delegateCacheWrites_shape now toCat l1 st m hr hw hc hlen with ⟨m1, heq1, hlen1⟩
    have hsplit : delegateCacheWrites now st toCat (l1 ++ c :: l2) =
        delegateCacheWrites now (delegateCacheWrites now st toCat l1) toCat (c :: l2) := by
      simp [delegateCacheWrites, List.foldl_append]
    rw [hsplit, heq1]
    have hsk := setKey_length (normalizeDescription item.1.description)
      ⟨c.category, jsOrConf c.confidence, now⟩ m1
    have hwrite := cacheCategory_healthy now
      { st with contents := .table m1 } item.1.description c.category
      (jsOrConf c.confidence) m1 hr hw rfl (by simp at hsz; omega)
    have hstep : delegateCacheWrites now { st with contents := .table m1 } toCat (c :: l2) =
        delegateCacheWrites now
          { st with contents := .table (setKey m1 (normalizeDescription item.1.description)
              ⟨c.category, jsOrConf c.confidence, now⟩) } toCat l2 := by
      simp [delegateCacheWrites, hitem, hwrite]
    rw [hstep]
    exact delegateCacheWrites_keeps_now now toCat (normalizeDescription item.1.description)
      l2 _ _ ⟨c.category, jsOrConf c.confidence, now⟩ hr hw rfl
      (lookupKey_setKey_self _ _ m1) rfl (by simp at hsz ⊢; omega)

/-- Witness for the amended C4, instantiating all three conjuncts on the
single-item scenario of the counterexample. -/
theorem C4_amended_witness :
    (categorizeTransactions true 77 clk2024 emptyStore
        (.ok [⟨1, "notacategory", some (9/10)⟩]) [⟨"zzqq", 50, none⟩] =
      .ok (finalAssemble clk2024 [⟨"zzqq", 50, none⟩] [⟨1, "notacategory", some (9/10)⟩],
           delegateCacheWrites 77
             (tierLoop 77 emptyStore [⟨"zzqq", 50, none⟩]).2.2
             (tierLoop 77 emptyStore [⟨"zzqq", 50, none⟩]).2.1
             [⟨1, "notacategory", some (9/10)⟩])) ∧
    ((finalAssemble clk2024 [⟨"zzqq", 50, none⟩] [⟨1, "notacategory", some (9/10)⟩]).get? 0 =
      some ⟨"zzqq", 50, jsOrDate none (todayStr clk2024), "random", some (9/10)⟩) ∧
    (∃ e, storeLookup
        (delegateCacheWrites 77 emptyStore [(⟨"zzqq", 50, none⟩, 0)]
          [⟨1, "notacategory", some (9/10)⟩])
        (normalizeDescription "zzqq") = some e ∧ e.timestamp = 77) :=
  ⟨C4_amended.1 77 clk2024 emptyStore [⟨1, "notacategory", some (9/10)⟩]
      [⟨"zzqq", 50, none⟩] (by decide) (by with_unfolding_all decide),
   C4_amended.2.1 clk2024 [⟨"zzqq", 50, none⟩] [⟨1, "notacategory", some (9/10)⟩]
      0 ⟨"zzqq", 50, none⟩ ⟨1, "notacategory", some (9/10)⟩ rfl
      (by with_unfolding_all decide) (by decide),
   C4_amended.2.2 77 emptyStore [(⟨"zzqq", 50, none⟩, 0)]
      [⟨1, "notacategory", some (9/10)⟩] [] ⟨1, "notacategory", some (9/10)⟩
      (⟨"zzqq", 50, none⟩, 0) rfl rfl rfl (by decide) (by with_unfolding_all decide)
      (by with_unfolding_all decide)⟩

/-! ## Extraction-delegate chunk claims (C5) -/

theorem processAIChunksAux_timeout (clk : Clock)
    (outcomes : Nat → Except ChunkFailure (List RawAIItem)) :
    ∀ (k remaining i : Nat) (acc : List ParsedTransaction),
      outcomes (i + k) = .error .abortTimeout →
      (∀ j < k, ∃ items, outcomes (i + j) = .ok items) →
      k < remaining →
      processAIChunksAux clk outcomes i remaining acc = .error .timedOut := by
  intro k
  induction k with
  | zero =>
    intro remaining i acc htime _ hlt
    cases remaining with
    | zero => omega
    | succ r =>
      simp only [processAIChunksAux]
      rw [show outcomes i = .error .abortTimeout from by simpa using htime]
      simp
  | succ k ih =>
    intro remaining i acc htime hok hlt
    cases remaining with
    | zero => omega
    | succ r =>
      rcases hok 0 (by omega) with ⟨items, h0⟩
      simp only [processAIChunksAux]
      rw [show outcomes i = .ok items from by simpa using h0]
      exact ih r (i + 1) _ (by simpa [Nat.add_assoc, Nat.add_comm, Nat.add_left_comm] using htime)
        (fun j hj => by
          rcases hok (j + 1) (by omega) with ⟨its, hits⟩
          exact ⟨its, by simpa [Nat.add_assoc, Nat.add_comm, Nat.add_left_comm] using hits⟩)
        (by omega)

theorem processAIChunksAux_ok (clk : Clock)
    (outcomes : Nat → Except ChunkFailure (List RawAIItem)) :
    ∀ (remaining i : Nat) (acc : List ParsedTransaction),
      (∀ j, i ≤ j → j < i + remaining → outcomes j ≠ .error .abortTimeout) →
      (i = 0 → 0 < remaining → ∃ items, outcomes 0 = .ok items) →
      processAIChunksAux clk outcomes i remaining acc =
        .ok (acc ++ contributionsFrom clk outcomes i remaining) := by
  intro remaining
  induction remaining with
  | zero => intro i acc _ _; simp [processAIChunksAux, contributionsFrom]
  | succ r ih =>
    intro i acc hnt h0
    cases houtcome : outcomes i with
    | ok items =>
      simp only [processAIChunksAux, houtcome]
      rw [ih (i + 1) (acc ++ validateAIItems clk items)
        (fun j hj1 hj2 => hnt j (by omega) (by omega)) (by omega)]
      simp [contributionsFrom, houtcome]
    | error e =>
      have hent : e ≠ ChunkFailure.abortTimeout := by
        intro hcontra
        exact hnt i (by omega) (by omega) (by rw [houtcome, hcontra])
      have hi : i ≠ 0 := by
        intro hcontra
        rcases h0 hcontra (by omega) with ⟨items, hitems⟩
        rw [hcontra, hitems] at houtcome
        exact Except.noConfusion houtcome
      simp only [processAIChunksAux, houtcome]
      rw [if_neg (by simpa using hent), if_neg (by simpa using hi)]
      rw [ih (i + 1) acc (fun j hj1 hj2 => hnt j (by omega) (by omega)) (by omega)]
      simp [contributionsFrom, houtcome]

set_option maxRecDepth 100000 in
/-- Counterexample to **C5** as stated: two chunks, the first succeeding with
one valid record, the second timing out.  The claim says the operation
returns the first chunk's transactions with no thrown error; the code throws
the timeout error for *any* chunk index (the `AbortError` branch rethrows
before the first-chunk test), so the whole operation fails.  The second
conjunct computes the nonempty result the claim expected. -/
theorem C5_counterexample :
    processAIChunks clk2024 ["chunk one", "chunk two"] outcomesLaterTimeout =
      .error .timedOut ∧
    jsDedup isDupAI (validateAIItems clk2024 [chunkOkItem]) =
      [⟨"2024-01-15", "SHOP ONE", 501/2, none⟩] := by
  constructor
  · with_unfolding_all decide
  · with_unfolding_all decide

/-- Chunk-failure policy of the per-chunk loop: (i) a failure on the first
chunk fails the whole operation with the remapped error; (ii) a timeout on
*any* chunk fails the whole operation, provided the chunks before it
succeeded; (iii) when no chunk times out and the first chunk succeeds,
non-timeout failures on later chunks are swallowed. -/
theorem processAIChunks_policy :
    (∀ (clk : Clock) (chunks : List String)
      (outcomes : Nat → Except ChunkFailure (List RawAIItem)) (e : ChunkFailure),
      chunks ≠ [] → outcomes 0 = .error e →
      processAIChunks clk chunks outcomes = .error (remapChunkFailure e)) ∧
    (∀ (clk : Clock) (chunks : List String)
      (outcomes : Nat → Except ChunkFailure (List RawAIItem)) (i : Nat),
      i < chunks.length → outcomes i = .error .abortTimeout →
      (∀ j < i, ∃ items, outcomes j = .ok items) →
      processAIChunks clk chunks outcomes = .error .timedOut) ∧
    (∀ (clk : Clock) (chunks : List String)
      (outcomes : Nat → Except ChunkFailure (List RawAIItem)),
      (∀ i < chunks.length, outcomes i ≠ .error .abortTimeout) →
      (chunks ≠ [] → ∃ items, outcomes 0 = .ok items) →
      processAIChunks clk chunks outcomes =
        .ok (jsDedup isDupAI (contributionsFrom clk outcomes 0 chunks.length))) := by
  refine ⟨?_, ?_, ?_⟩
  · intro clk chunks outcomes e hne h0
    cases chunks with
    | nil => exact absurd rfl hne
    | cons c rest =>
      simp only [processAIChunks, List.length_cons, processAIChunksAux, h0]
      by_cases ht : e = ChunkFailure.abortTimeout
      · simp [ht, remapChunkFailure, Except.map]
      · simp [ht, remapChunkFailure, Except.map]
  · intro clk chunks outcomes i hi htime hok
    simp only [processAIChunks]
    rw [processAIChunksAux_timeout clk outcomes i chunks.length 0 []
      (by simpa using htime) (fun j hj => by simpa using hok j hj) hi]
    rfl
  · intro clk chunks outcomes hnt h0
    simp only [processAIChunks]
    rw [processAIChunksAux_ok clk outcomes chunks.length 0 []
      (fun j hj1 hj2 => hnt j (by omega))
      (fun _ hlen => h0 (by cases chunks with
        | nil => simp at hlen
        | cons c r => simp))]
    simp [Except.map]

/-- **C5 amended** — the chunk-failure policy stated on
`extractTransactionsWithAI` (the input split into chunks by `chunkText`):
(i) a failure on the first chunk fails the whole operation with the remapped
error; (ii) a timeout on *any* chunk — not only the first — fails the whole
operation with the timeout error, provided the chunks before it succeeded;
(iii) when no chunk times out and the first chunk succeeds, non-timeout
failures on later chunks are swallowed: those chunks contribute zero
transactions and the deduplicated transactions of all successful chunks are
still returned. -/
theorem C5_amended :
    (∀ (clk : Clock) (text : String)
      (outcomes : Nat → Except ChunkFailure (List RawAIItem)) (e : ChunkFailure),
      chunkText text ≠ [] → outcomes 0 = .error e →
      extractTransactionsWithAI true clk text outcomes = .error (remapChunkFailure e)) ∧
    (∀ (clk : Clock) (text : String)
      (outcomes : Nat → Except ChunkFailure (List RawAIItem)) (i : Nat),
      i < (chunkText text).length → outcomes i = .error .abortTimeout →
      (∀ j < i, ∃ items, outcomes j = .ok items) →
      extractTransactionsWithAI true clk text outcomes = .error .timedOut) ∧
    (∀ (clk : Clock) (text : String)
      (outcomes : Nat → Except ChunkFailure (List RawAIItem)),
      (∀ i < (chunkText text).length, outcomes i ≠ .error .abortTimeout) →
      (chunkText text ≠ [] → ∃ items, outcomes 0 = .ok items) →
      extractTransactionsWithAI true clk text outcomes =
        .ok (jsDedup isDupAI (contributionsFrom clk outcomes 0 (chunkText text).length))) := by
  refine ⟨?_, ?_, ?_⟩
  · intro clk text outcomes e hne h0
    exact processAIChunks_policy.1 clk (chunkText text) outcomes e hne h0
  · intro clk text outcomes i hi htime hok
    exact processAIChunks_policy.2.1 clk (chunkText text) outcomes i hi htime hok
  · intro clk text outcomes hnt h0
    exact processAIChunks_policy.2.2 clk (chunkText text) outcomes hnt h0

/-- Witness for the amended C5 on a single-chunk input whose chunk succeeds. -/
theorem C5_amended_witness :
    extractTransactionsWithAI true clk2024 "statement text" outcomesLaterTimeout =
    .ok (jsDedup isDupAI (contributionsFrom clk2024 outcomesLaterTimeout 0
      (chunkText "statement text").length)) := by
  have h := C5_amended.2.2 clk2024 "statement text" outcomesLaterTimeout
    (by intro i hi
        have hlen : (chunkText "statement text").length = 1 := by
          with_unfolding_all decide
        match i with
        | 0 => simp [outcomesLaterTimeout]
        | n + 1 => omega)
    (fun _ => ⟨[chunkOkItem], by simp [outcomesLaterTimeout]⟩)
  exact h

/-! ## Pattern-matching extractor claims (C6) -/

theorem pmStop_concat_false (txs : List ParsedTransaction) (t : ParsedTransaction)
    (h : pmStop (txs ++ [t]) = false) : t.description = "Transaction" := by
  unfold pmStop at h
  rw [List.getLast?_concat] at h
  simpa using h

/-- Counterexample to **C6** as stated: the single-line input
`"01/02/2024 5.00"` yields one candidate line carrying exactly one date-
pattern match, yet the extractor returns two transactions for it (before
dedup it even records three — amounts 1, 5, 1 — one per amount pattern,
because the accepted description is the fallback `"Transaction"`, which
disables the break condition). -/
theorem C6_counterexample :
    extractTransactionsPatternMatching clk2024 "01/02/2024 5.00" =
      [⟨"2024-02-01", "Transaction", 1, none⟩, ⟨"2024-02-01", "Transaction", 5, none⟩] ∧
    buildAllLines "01/02/2024 5.00" = ["01/02/2024 5.00"] ∧
    matchAllPat (dateMatchAt .d1) "01/02/2024 5.00" = ["01/02/2024"] ∧
    matchAllPat (dateMatchAt .d2) "01/02/2024 5.00" = [] := by
  refine ⟨?_, ?_, ?_, ?_⟩ <;> with_unfolding_all decide

/-- **C6 amended** — per (date-pattern match, line), the amount scan emits at
most one transaction per *amount pattern* (so at most three in total), not at
most one: the candidate scan of each amount pattern stops at its first
plausible amount, and the scan over the remaining amount patterns continues
exactly as long as every transaction recorded so far for this date match
carries the fallback description `"Transaction"` — all emitted transactions
except possibly the last one carry that fallback description. -/
theorem C6_amended (clk : Clock) (ctx : PmCtx) (aps : List AmountPat)
    (txs : List ParsedTransaction) :
    ∃ nw, scanAmountPatterns clk ctx aps txs = txs ++ nw ∧
      nw.length ≤ aps.length ∧
      (∀ (i : Nat) (t : ParsedTransaction), i + 1 < nw.length → nw.get? i = some t →
        t.description = "Transaction") := by
  induction aps generalizing txs with
  | nil => exact ⟨[], by simp [scanAmountPatterns], by simp, by simp⟩
  | cons ap rest ih =>
    cases hfp : firstPlausible (matchAllPat (amountMatchAt ap) ctx.combined) with
    | none =>
      by_cases hstop : pmStop txs = true
      · refine ⟨[], ?_, by simp, by simp⟩
        simp [scanAmountPatterns, hfp, hstop]
      · rcases ih txs with ⟨nw, heq, hlen, hdesc⟩
        refine ⟨nw, ?_, by simpa using Nat.le_succ_of_le hlen, hdesc⟩
        simpa [scanAmountPatterns, hfp, hstop] using heq
    | some q =>
      by_cases hstop : pmStop (txs ++ [mkPmTx clk ctx ap q]) = true
      · refine ⟨[mkPmTx clk ctx ap q], ?_, by simp, by simp⟩
        simp [scanAmountPatterns, hfp, hstop]
      · have hdesc0 : (mkPmTx clk ctx ap q).description = "Transaction" :=
          pmStop_concat_false txs _ (by simpa using hstop)
        rcases ih (txs ++ [mkPmTx clk ctx ap q]) with ⟨nw2, heq, hlen, hdesc⟩
        refine ⟨mkPmTx clk ctx ap q :: nw2, ?_, by simpa using hlen, ?_⟩
        · rw [show txs ++ mkPmTx clk ctx ap q :: nw2 = (txs ++ [mkPmTx clk ctx ap q]) ++ nw2
            by simp]
          rw [← heq]
          simp [scanAmountPatterns, hfp, hstop]
        · intro i t hi hget
          cases i with
          | zero =>
            simp only [List.get?_cons_zero, Option.some_inj] at hget
            rw [← hget]
            exact hdesc0
          | succ i =>
            exact hdesc i t (by simpa using hi) (by simpa using hget)

/-- Witness for the amended C6, instantiated at the context of the
counterexample line. -/
theorem C6_amended_witness :
    ∃ nw, scanAmountPatterns clk2024
        ⟨"01/02/2024 5.00", "", " 01/02/2024 5.00 ", "01/02/2024", .d1⟩ amountPats [] =
        [] ++ nw ∧
      nw.length ≤ amountPats.length ∧
      (∀ (i : Nat) (t : ParsedTransaction), i + 1 < nw.length → nw.get? i = some t →
        t.description = "Transaction") :=
  C6_amended clk2024 ⟨"01/02/2024 5.00", "", " 01/02/2024 5.00 ", "01/02/2024", .d1⟩
    amountPats []

/-! ## Lemmas about dates and shapes (for C3 and C8) -/

theorem digitChar_isDigit (n : Nat) : (digitChar n).isDigit = true := by
  unfold digitChar
  have h : n % 10 < 10 := Nat.mod_lt _ (by norm_num)
  set k := n % 10 with hk
  interval_cases k <;> rfl

theorem isoDateString_shape (y : Int) (m d : Nat) :
    isShape4 (isoDateString y m d) = true ∨ isShapeExp (isoDateString y m d) = true := by
  unfold isoDateString
  by_cases h : 0 ≤ y ∧ y ≤ 9999
  · left
    rw [if_pos h]
    simp [isShape4, digitChar_isDigit]
  · right
    rw [if_neg h]
    by_cases hneg : y < 0
    · simp [hneg, isShapeExp, digitChar_isDigit]
    · simp [hneg, isShapeExp, digitChar_isDigit]

theorem anch224_shape (s d m y : String) (h : anch224 s = some (d, m, y)) :
    isShape4 (y ++ "-" ++ m ++ "-" ++ d) = true := by
  unfold anch224 at h
  split at h
  · rename_i a b s1 c0 d0 s2 e0 f0 g0 h0 heq
    split at h
    · rename_i hcond
      simp only [Option.some.injEq, Prod.mk.injEq] at h
      obtain ⟨hd, hm, hy⟩ := h
      subst hd; subst hm; subst hy
      repeat rw [Bool.and_eq_true] at hcond
      obtain ⟨⟨⟨⟨⟨⟨⟨⟨⟨ha, hb⟩, -⟩, hc⟩, hd2⟩, -⟩, he⟩, hf⟩, hg⟩, hh⟩ := hcond
      show isShape4 ⟨[e0, f0, g0, h0, '-', c0, d0, '-', a, b]⟩ = true
      simp only [isShape4]
      rw [ha, hb, hc, hd2, he, hf, hg, hh]
      simp
    · exact absurd h (by simp)
  · exact absurd h (by simp)

theorem anch422_shape (s y m d : String) (h : anch422 s = some (y, m, d)) :
    isShape4 (y ++ "-" ++ m ++ "-" ++ d) = true := by
  unfold anch422 at h
  split at h
  · rename_i a b c0 d0 s1 e0 f0 s2 g0 h0 heq
    split at h
    · rename_i hcond
      simp only [Option.some.injEq, Prod.mk.injEq] at h
      obtain ⟨hy, hm, hd⟩ := h
      subst hy; subst hm; subst hd
      repeat rw [Bool.and_eq_true] at hcond
      obtain ⟨⟨⟨⟨⟨⟨⟨⟨⟨ha, hb⟩, hc⟩, hd2⟩, -⟩, he⟩, hf⟩, -⟩, hg⟩, hh⟩ := hcond
      show isShape4 ⟨[a, b, c0, d0, '-', e0, f0, '-', g0, h0]⟩ = true
      simp only [isShape4]
      rw [ha, hb, hc, hd2, he, hf, hg, hh]
      simp
    · exact absurd h (by simp)
  · exact absurd h (by simp)

theorem parseDate_shape (clk : Clock) (s : String) :
    isShape4 (parseDate clk s) = true ∨ isShapeExp (parseDate clk s) = true := by
  unfold parseDate todayStr
  by_cases hs0 : s = ""
  · rw [if_pos hs0]
    exact isoDateString_shape _ _ _
  · rw [if_neg hs0]
    by_cases hp0 : isShape4 (trimJS s) = true
    · rw [if_pos hp0]
      exact Or.inl hp0
    · rw [if_neg hp0]
      cases h224 : anch224 (trimJS s) with
      | some trip =>
        obtain ⟨d, m, y⟩ := trip
        simp only [h224]
        exact Or.inl (anch224_shape _ _ _ _ h224)
      | none =>
        simp only [h224]
        cases h422 : anch422 (trimJS s) with
        | some trip =>
          obtain ⟨y, m, d⟩ := trip
          simp only [h422]
          exact Or.inl (anch422_shape _ _ _ _ h422)
        | none =>
          simp only [h422]
          cases hjs : jsDateParse (trimJS s) with
          | some ymd =>
            obtain ⟨y, m, d⟩ := ymd
            simp only [hjs]
            exact isoDateString_shape _ _ _
          | none =>
            simp only [hjs]
            exact isoDateString_shape _ _ _

/-! ## Lemmas about the `parseCsv` row loop (for C3 and C8) -/

theorem foldl_push_eq_filterMap (f : String → Option ParsedTransaction) :
    ∀ (rows : List String) (acc : List ParsedTransaction),
      rows.foldl (pushRow f) acc = acc ++ rows.filterMap f := by
  intro rows
  induction rows with
  | nil => intro acc; simp
  | cons r rest ih =>
    intro acc
    cases hf : f r with
    | some t => simp [List.foldl_cons, pushRow, hf, ih, List.filterMap_cons]
    | none => simp [List.foldl_cons, pushRow, hf, ih, List.filterMap_cons]

theorem parseCsvRow_eq_ite (clk : Clock) (di dsi ai ri : Int) (line : String) :
    parseCsvRow clk di dsi ai ri line =
      if rowQualifies dsi ai line then some (rowTransaction clk di dsi ai ri line)
      else none := by
  by_cases hdesc : trimJS (jsIndexGet (rowValues line) dsi) = "" <;>
    by_cases hamt : jsIndexGet (rowValues line) ai = "" <;>
    by_cases hz : parseAmount (jsIndexGet (rowValues line) ai) = 0 <;>
    simp [parseCsvRow, rowQualifies, rowIsBlank, rowTransaction, hdesc, hamt, hz]

theorem filterMap_parseCsvRow (clk : Clock) (di dsi ai ri : Int) :
    ∀ rows : List String,
      rows.filterMap (parseCsvRow clk di dsi ai ri) =
        (rows.filter (rowQualifies dsi ai)).map (rowTransaction clk di dsi ai ri) := by
  intro rows
  induction rows with
  | nil => rfl
  | cons r rest ih =>
    rw [List.filterMap_cons, parseCsvRow_eq_ite]
    by_cases hq : rowQualifies dsi ai r = true
    · simp [List.filter_cons, hq, ih]
    · simp [List.filter_cons, hq, ih]

/-- **C3** — on an input with at least a header and one data row whose header
resolves the date, description, and amount columns, `parseCsv` records no
structural error and returns exactly one transaction per data row that is
non-blank and has a non-zero parsed amount, in row order. -/
theorem C3_parseCsv (clk : Clock) (content : String)
    (h0 : trimJS content ≠ "")
    (h2 : 2 ≤ (csvLines content).length)
    (hd : findColumnIndex (csvHeaders content) dateAliases ≠ -1)
    (hs : findColumnIndex (csvHeaders content) descriptionAliases ≠ -1)
    (ha : findColumnIndex (csvHeaders content) amountAliases ≠ -1) :
    (∀ e ∈ (parseCsv clk content).errors, e ∉ structuralMessages) ∧
    (parseCsv clk content).transactions =
      (((csvLines content).drop 1).filter
        (rowQualifies (findColumnIndex (csvHeaders content) descriptionAliases)
          (findColumnIndex (csvHeaders content) amountAliases))).map
        (rowTransaction clk (findColumnIndex (csvHeaders content) dateAliases)
          (findColumnIndex (csvHeaders content) descriptionAliases)
          (findColumnIndex (csvHeaders content) amountAliases)
          (findColumnIndex (csvHeaders content) referenceAliases)) := by
  have hne2 : ¬ (csvLines content).length < 2 := by omega
  have hchar : parseCsv clk content =
      (if (((csvLines content).drop 1).filter
            (rowQualifies (findColumnIndex (csvHeaders content) descriptionAliases)
              (findColumnIndex (csvHeaders content) amountAliases))).map
            (rowTransaction clk (findColumnIndex (csvHeaders content) dateAliases)
              (findColumnIndex (csvHeaders content) descriptionAliases)
              (findColumnIndex (csvHeaders content) amountAliases)
              (findColumnIndex (csvHeaders content) referenceAliases)) = []
       then { transactions := [], errors := [csvNoTxMsg] }
       else { transactions :=
                (((csvLines content).drop 1).filter
                  (rowQualifies (findColumnIndex (csvHeaders content) descriptionAliases)
                    (findColumnIndex (csvHeaders content) amountAliases))).map
                  (rowTransaction clk (findColumnIndex (csvHeaders content) dateAliases)
                    (findColumnIndex (csvHeaders content) descriptionAliases)
                    (findColumnIndex (csvHeaders content) amountAliases)
                    (findColumnIndex (csvHeaders content) referenceAliases)),
              errors := [] }) := by
    simp only [parseCsv, if_neg h0, if_neg hne2, if_neg hd, if_neg hs, if_neg ha,
      List.nil_append, List.append_nil]
    rw [if_neg (by simp)]
    rw [foldl_push_eq_filterMap]
    rw [filterMap_parseCsvRow]
    simp only [List.nil_append]
  rw [hchar]
  by_cases hT : (((csvLines content).drop 1).filter
      (rowQualifies (findColumnIndex (csvHeaders content) descriptionAliases)
        (findColumnIndex (csvHeaders content) amountAliases))).map
      (rowTransaction clk (findColumnIndex (csvHeaders content) dateAliases)
        (findColumnIndex (csvHeaders content) descriptionAliases)
        (findColumnIndex (csvHeaders content) amountAliases)
        (findColumnIndex (csvHeaders content) referenceAliases)) = []
  · rw [if_pos hT]
    refine ⟨?_, hT.symm⟩
    intro e he
    simp only [List.mem_singleton] at he
    subst he
    decide
  · rw [if_neg hT]
    exact ⟨by intro e he; simp at he, rfl⟩

/-- Witness for C3 at a concrete 3-row input: the blank row and the
zero-amount row are skipped, the remaining row yields its transaction. -/
theorem C3_parseCsv_witness :
    (∀ e ∈ (parseCsv clk2024
        "Date,Details,Amount\n2024-01-15,Checkers Sandton,-450.00\n,,\n15/01/2024,Spar,0").errors,
      e ∉ structuralMessages) ∧
    (parseCsv clk2024
        "Date,Details,Amount\n2024-01-15,Checkers Sandton,-450.00\n,,\n15/01/2024,Spar,0").transactions =
      (((csvLines
          "Date,Details,Amount\n2024-01-15,Checkers Sandton,-450.00\n,,\n15/01/2024,Spar,0").drop 1).filter
        (rowQualifies 1 2)).map (rowTransaction clk2024 0 1 2 (-1)) := by
  have h := C3_parseCsv clk2024
    "Date,Details,Amount\n2024-01-15,Checkers Sandton,-450.00\n,,\n15/01/2024,Spar,0"
    (by decide) (by decide)
    (by with_unfolding_all decide) (by with_unfolding_all decide) (by with_unfolding_all decide)
  refine ⟨h.1, ?_⟩
  rw [h.2]
  have hdi : findColumnIndex (csvHeaders
      "Date,Details,Amount\n2024-01-15,Checkers Sandton,-450.00\n,,\n15/01/2024,Spar,0")
      dateAliases = 0 := by with_unfolding_all decide
  have hsi : findColumnIndex (csvHeaders
      "Date,Details,Amount\n2024-01-15,Checkers Sandton,-450.00\n,,\n15/01/2024,Spar,0")
      descriptionAliases = 1 := by with_unfolding_all decide
  have hai : findColumnIndex (csvHeaders
      "Date,Details,Amount\n2024-01-15,Checkers Sandton,-450.00\n,,\n15/01/2024,Spar,0")
      amountAliases = 2 := by with_unfolding_all decide
  have hri : findColumnIndex (csvHeaders
      "Date,Details,Amount\n2024-01-15,Checkers Sandton,-450.00\n,,\n15/01/2024,Spar,0")
      referenceAliases = -1 := by with_unfolding_all decide
  rw [hdi, hsi, hai, hri]

/-! ## Date-shape claims (C8) -/

theorem parseCsvRow_date (clk : Clock) (di dsi ai ri : Int) (line : String)
    (tx : ParsedTransaction) (h : parseCsvRow clk di dsi ai ri line = some tx) :
    tx.date = parseDate clk (jsIndexGet (rowValues line) di) := by
  rw [parseCsvRow_eq_ite] at h
  by_cases hq : rowQualifies dsi ai line = true
  · rw [if_pos hq] at h
    simp only [Option.some.injEq] at h
    rw [← h]
    rfl
  · rw [if_neg hq] at h
    exact absurd h (by simp)

theorem parseCsv_mem_dates (clk : Clock) (content : String) (tx : ParsedTransaction)
    (h : tx ∈ (parseCsv clk content).transactions) :
    ∃ s, tx.date = parseDate clk s := by
  by_cases h0 : trimJS content = ""
  · simp [parseCsv, h0] at h
  · by_cases h2 : (csvLines content).length < 2
    · simp [parseCsv, h0, h2] at h
    · by_cases herr : ((if findColumnIndex (csvHeaders content) dateAliases = -1
            then [csvNoDateMsg] else []) ++
          (if findColumnIndex (csvHeaders content) descriptionAliases = -1
            then [csvNoDescMsg] else []) ++
          (if findColumnIndex (csvHeaders content) amountAliases = -1
            then [csvNoAmountMsg] else [])) ≠ []
      · simp only [parseCsv, if_neg h0, if_neg h2, if_pos herr] at h
        simp at h
      · simp only [parseCsv, if_neg h0, if_neg h2, if_neg herr] at h
        rw [foldl_push_eq_filterMap] at h
        by_cases hT : ((csvLines content).drop 1).filterMap
            (parseCsvRow clk (findColumnIndex (csvHeaders content) dateAliases)
              (findColumnIndex (csvHeaders content) descriptionAliases)
              (findColumnIndex (csvHeaders content) amountAliases)
              (findColumnIndex (csvHeaders content) referenceAliases)) = []
        · rw [List.nil_append] at h
          rw [if_pos hT] at h
          simp at h
        · rw [List.nil_append] at h
          rw [if_neg hT] at h
          simp only [List.mem_filterMap] at h
          rcases h with ⟨row, _, hrow⟩
          exact ⟨_, parseCsvRow_date _ _ _ _ _ _ _ hrow⟩

set_option maxRecDepth 100000 in
/-- Counterexample to **C8** as stated: a resolvable two-row input whose date
cells are `99/99/9999` and `+020024-01-01`.  The first is rearranged by the
field-width heuristic into `9999-99-99` without any validation — the right
shape but not an ISO-8601 calendar date (month 99) — and the second is parsed
by the native date path into the expanded-year ISO form `+020024-01-01`,
which is not in `YYYY-MM-DD` form at all. -/
theorem C8_counterexample :
    (parseCsv clk2024
        "Date,Details,Amount\n99/99/9999,shop,5\n+020024-01-01,shop2,5").transactions.map
        (fun t => t.date) = ["9999-99-99", "+020024-01-01"] ∧
    isValidISODate "9999-99-99" = false ∧
    isShape4 "+020024-01-01" = false := by
  refine ⟨?_, by decide, by decide⟩
  with_unfolding_all decide

/-- **C8 amended** — `parseDate` is total and falls back to today when no
recognizer matches, and every date it produces — hence every date field of a
`parseCsv` transaction — matches `\d{4}-\d{2}-\d{2}` or the expanded-year
shape `[+-]\d{6}-\d{2}-\d{2}`; the month and day subfields are not validated
(they need not form a real calendar date). -/
theorem C8_amended :
    (∀ (clk : Clock) (s : String),
      isShape4 (parseDate clk s) = true ∨ isShapeExp (parseDate clk s) = true) ∧
    (∀ (clk : Clock) (s : String), s ≠ "" → isShape4 (trimJS s) ≠ true →
      anch224 (trimJS s) = none → anch422 (trimJS s) = none →
      jsDateParse (trimJS s) = none → parseDate clk s = todayStr clk) ∧
    (∀ (clk : Clock) (content : String) (tx : ParsedTransaction),
      tx ∈ (parseCsv clk content).transactions →
      isShape4 tx.date = true ∨ isShapeExp tx.date = true) := by
  refine ⟨parseDate_shape, ?_, ?_⟩
  · intro clk s hs0 hp0 h224 h422 hjs
    simp [parseDate, hs0, hp0, h224, h422, hjs]
  · intro clk content tx h
    rcases parseCsv_mem_dates clk content tx h with ⟨s, hdate⟩
    rw [hdate]
    exact parseDate_shape clk s

set_option maxRecDepth 100000 in
/-- Witness for the amended C8 at a concrete one-row input. -/
theorem C8_amended_witness :
    isShape4 (ParsedTransaction.mk "2024-01-15" "shop" 5 none).date = true ∨
      isShapeExp (ParsedTransaction.mk "2024-01-15" "shop" 5 none).date = true :=
  C8_amended.2.2 clk2024 "Date,Details,Amount\n2024-01-15,shop,5"
    ⟨"2024-01-15", "shop", 5, none⟩ (by with_unfolding_all decide)

end Budget
